import Mathlib

/-!
Shallow embedding of the data pipeline of `CO2-emission_app.py`
(Global CO2 Emission & GDP Explorer).

The script is a module-level pandas program: it loads a CSV into a
dataframe, lower-cases the column names, renames loosely-named columns to
canonical ones, coerces metric columns to numeric, computes derived metric
columns, and projects a fixed eight-column master table.

We model a dataframe as a `Table`: a list of column names plus a list of
rows, each row a list of cells.  A cell is either a missing value (pandas
`NaN` / `NA`), positive or negative infinity (which pandas float division
can produce), an exact rational number standing for a pandas float, or a
string.  Rational arithmetic stands for float arithmetic: the properties
verified here concern missing/infinite-value propagation, guards, grouping
and ordering, none of which depend on rounding.
-/

set_option maxRecDepth 100000

inductive Cell where
  | na
  | inf
  | negInf
  | num (q : ℚ)
  | str (s : String)
deriving DecidableEq

/-- Pandas/NumPy elementwise addition on float cells: `NaN` absorbs,
`inf + (-inf) = NaN`, otherwise infinities absorb.  String cells do not
occur in numeric arithmetic (columns are coerced first); they map to `NaN`
like any non-numeric operand. -/
def cadd : Cell → Cell → Cell
  | Cell.na, _ => Cell.na
  | _, Cell.na => Cell.na
  | Cell.str _, _ => Cell.na
  | _, Cell.str _ => Cell.na
  | Cell.inf, Cell.negInf => Cell.na
  | Cell.negInf, Cell.inf => Cell.na
  | Cell.inf, _ => Cell.inf
  | _, Cell.inf => Cell.inf
  | Cell.negInf, _ => Cell.negInf
  | _, Cell.negInf => Cell.negInf
  | Cell.num a, Cell.num b => Cell.num (a + b)

/-- Pandas/NumPy elementwise division on float cells: `NaN` absorbs;
`x / 0` is `NaN` when `x = 0`, `+inf` when `x > 0`, `-inf` when `x < 0`
(never an exception). -/
def cdiv : Cell → Cell → Cell
  | Cell.na, _ => Cell.na
  | _, Cell.na => Cell.na
  | Cell.str _, _ => Cell.na
  | _, Cell.str _ => Cell.na
  | Cell.inf, Cell.inf => Cell.na
  | Cell.inf, Cell.negInf => Cell.na
  | Cell.negInf, Cell.inf => Cell.na
  | Cell.negInf, Cell.negInf => Cell.na
  | Cell.inf, Cell.num b => if b < 0 then Cell.negInf else Cell.inf
  | Cell.negInf, Cell.num b => if b < 0 then Cell.inf else Cell.negInf
  | Cell.num _, Cell.inf => Cell.num 0
  | Cell.num _, Cell.negInf => Cell.num 0
  | Cell.num a, Cell.num b =>
      if b = 0 then
        if a = 0 then Cell.na else if a > 0 then Cell.inf else Cell.negInf
      else Cell.num (a / b)

/-- Multiplication by the positive constant 100 (the `* 100` of the
percentage columns): infinities and `NaN` are preserved. -/
def cmul100 : Cell → Cell
  | Cell.num a => Cell.num (100 * a)
  | Cell.inf => Cell.inf
  | Cell.negInf => Cell.negInf
  | _ => Cell.na

/-- `Series.fillna(0)`: replaces `NaN` by `0`; infinities are NOT missing
values and pass through untouched. -/
def fillna0 (v : Cell) : Cell := if v = Cell.na then Cell.num 0 else v

/-- `Series.replace({0: pd.NA})`: cells equal to `0` become missing. -/
def replace0na (v : Cell) : Cell := if v = Cell.num 0 then Cell.na else v

/-- Pandas `sum` with `skipna=True` (the groupby default): missing values
are ignored, an all-missing (or empty) group sums to `0`. -/
def sumSkipNA (l : List Cell) : Cell :=
  l.foldl
    (fun acc v =>
      match v with
      | Cell.na => acc
      | Cell.str _ => acc
      | x => cadd acc x)
    (Cell.num 0)

structure Table where
  cols : List String
  rows : List (List Cell)
deriving DecidableEq

/-- Well-formedness of a dataframe: distinct column names (pandas mangles
duplicates on load) and rectangular rows. -/
def Table.wf (t : Table) : Prop :=
  t.cols.Nodup ∧ ∀ r ∈ t.rows, r.length = t.cols.length

instance (t : Table) : Decidable t.wf := by
  unfold Table.wf; infer_instance

/-- Index of a column name, `df.columns.get_loc`. -/
def Table.colIdx (t : Table) (c : String) : Option Nat :=
  t.cols.findIdx? (fun x => x = c)

/-- `c in df.columns`. -/
def Table.hasCol (t : Table) (c : String) : Bool := t.cols.contains c

/-- `df[c]` as a list of cells (empty if the column is absent). -/
def Table.getCol (t : Table) (c : String) : List Cell :=
  match t.colIdx c with
  | some i => t.rows.map (fun r => r.getD i Cell.na)
  | none => []

/-- `df[c] = vs`: overwrite the column in place if present, otherwise
append it as the last column (pandas column-assignment semantics). -/
def Table.setCol (t : Table) (c : String) (vs : List Cell) : Table :=
  match t.colIdx c with
  | some i => ⟨t.cols, (t.rows.zip vs).map (fun p => p.1.set i p.2)⟩
  | none => ⟨t.cols ++ [c], (t.rows.zip vs).map (fun p => p.1 ++ [p.2])⟩

/-- `df.groupby(key)[val].transform('sum')`: each row receives the sum of
`vals` over the rows sharing its key, missing addends skipped; rows whose
key is missing are dropped from every group (`dropna=True`, the groupby
default) and receive a missing result. -/
def groupTransformSum (keys vals : List Cell) : List Cell :=
  keys.map (fun k =>
    if k = Cell.na then Cell.na
    else
      sumSkipNA ((keys.zip vals).filterMap
        (fun p => if p.1 = k then some p.2 else none)))

/-- `df.groupby(key)[val].cumsum()`: per-key running sum in row order with
`skipna=True` semantics — a missing addend yields a missing cell at its own
position but is skipped by later positions; missing-key rows get a missing
result. -/
def groupCumsum (keys vals : List Cell) : List Cell :=
  (List.range keys.length).map (fun i =>
    match keys.getD i Cell.na, vals.getD i Cell.na with
    | Cell.na, _ => Cell.na
    | _, Cell.na => Cell.na
    | k, _ =>
      sumSkipNA (((keys.zip vals).take (i + 1)).filterMap
        (fun p => if p.1 = k then some p.2 else none)))

/-- Rank used to compare cells of distinct shapes.  Missing values sort
last (pandas `na_position` default); the relative placement of strings and
numbers is a total-order stand-in for pandas, which raises on mixed-type
comparisons — claims about sorting are stated on well-typed key columns. -/
def cellRank : Cell → Nat
  | Cell.negInf => 0
  | Cell.num _ => 1
  | Cell.inf => 2
  | Cell.str _ => 3
  | Cell.na => 4

/-- Total order on cells: numbers by rational order, strings
lexicographically, otherwise by rank. -/
def cellLe (a b : Cell) : Bool :=
  match a, b with
  | Cell.num x, Cell.num y => decide (x ≤ y)
  | Cell.str x, Cell.str y => decide (x ≤ y)
  | _, _ => decide (cellRank a ≤ cellRank b)

/-- Lexicographic order on `(country, year)` sort keys. -/
def keyLe (a b : Cell × Cell) : Bool :=
  if a.1 = b.1 then cellLe a.2 b.2 else cellLe a.1 b.1

/-- The `(country, year)` key of a row, given the two column indices. -/
def rowKey (ci yi : Nat) (r : List Cell) : Cell × Cell :=
  (r.getD ci Cell.na, r.getD yi Cell.na)

/-- Row comparison by `(country, year)` key, as a proposition. -/
def rowLeP (ci yi : Nat) (r s : List Cell) : Prop :=
  keyLe (rowKey ci yi r) (rowKey ci yi s) = true

instance (ci yi : Nat) : DecidableRel (rowLeP ci yi) := by
  unfold rowLeP; infer_instance

/-- `df.sort_values(['country','year'])`: ascending lexicographic sort on
the two key columns.  Pandas multi-key sorts go through `np.lexsort`,
which is stable; `List.insertionSort` is the stable sort of the model
(stable sorts of the same total preorder agree on every input). -/
def sortByCountryYear (t : Table) : Table :=
  let ci := (t.colIdx "country").getD 0
  let yi := (t.colIdx "year").getD 0
  ⟨t.cols, t.rows.insertionSort (rowLeP ci yi)⟩

/-! ### Schema Normalizer -/

/-- `pat` occurs at the head of the character list. -/
def leadMatch : List Char → List Char → Bool
  | [], _ => true
  | _ :: _, [] => false
  | p :: ps, c :: cs => p = c && leadMatch ps cs

/-- `pat` occurs somewhere in the character list. -/
def subSearch (pat : List Char) : List Char → Bool
  | [] => pat.isEmpty
  | c :: rest => leadMatch pat (c :: rest) || subSearch pat rest

/-- Python substring test `pat in s`. -/
def hasSub (pat s : String) : Bool := subSearch pat.toList s.toList

/-- Python `s.endswith(pat)`. -/
def strEndsWith (s pat : String) : Bool :=
  leadMatch pat.toList.reverse s.toList.reverse

/-- Python `s.lower()` (ASCII, which covers every column-name literal the
source matches against). -/
def strLower (s : String) : String := ⟨s.toList.map Char.toLower⟩

/-- `df.columns = [c.lower() for c in df.columns]`. -/
def lowerCols (t : Table) : Table := ⟨t.cols.map strLower, t.rows⟩

/-- Match rule for `country`: `'country' in col` (the exact-name case is
handled by the already-present guard of `renameTarget`). -/
def countryRule (c : String) : Bool := hasSub "country" c

/-- Match rule for `year`: `'year' in col`. -/
def yearRule (c : String) : Bool := hasSub "year" c

/-- Match rule for `co2`: `'co2' == c or 'co2_' in c or c.endswith('co2')`. -/
def co2Rule (c : String) : Bool :=
  c = "co2" || hasSub "co2_" c || strEndsWith c "co2"

/-- Match rule for `population`: `'pop' in c and c != 'co2_per_capita'`. -/
def popRule (c : String) : Bool := hasSub "pop" c && c ≠ "co2_per_capita"

/-- Match rule for `gdp`: `'gdp' in c and 'per' not in c`. -/
def gdpRule (c : String) : Bool := hasSub "gdp" c && !hasSub "per" c

/-- Match rule for `gdp_per_capita`: `'gdp_per_capita' in c or 'gdp_pc' in c`. -/
def gdpPcRule (c : String) : Bool :=
  hasSub "gdp_per_capita" c || hasSub "gdp_pc" c

/-- Match rule for `co2_per_capita`:
`'co2_per_capita' in c or c.endswith('per_capita') and 'co2' in c`
(Python precedence: `A or (B and C)`). -/
def co2PcRule (c : String) : Bool :=
  hasSub "co2_per_capita" c || (strEndsWith c "per_capita" && hasSub "co2" c)

/-- One rename block of the source: skipped when the canonical `target`
already exists; otherwise the first column (in column order) satisfying
`rule` is renamed to `target` and the loop breaks. -/
def renameTarget (t : Table) (target : String) (rule : String → Bool) : Table :=
  if t.hasCol target then t
  else
    match t.cols.find? rule with
    | some c => ⟨t.cols.map (fun x => if x = c then target else x), t.rows⟩
    | none => t

/-- The seven rename blocks, in source order. -/
def renameAll (t : Table) : Table :=
  renameTarget
    (renameTarget
      (renameTarget
        (renameTarget
          (renameTarget
            (renameTarget
              (renameTarget t "country" countryRule)
              "year" yearRule)
            "co2" co2Rule)
          "population" popRule)
        "gdp" gdpRule)
      "gdp_per_capita" gdpPcRule)
    "co2_per_capita" co2PcRule

/-- Digit list to natural number. -/
def digitsVal (l : List Char) : Nat :=
  l.foldl (fun n c => 10 * n + (c.toNat - 48)) 0

/-- Unsigned decimal literal `digits[.digits]` as an exact rational. -/
def parseUnsigned (l : List Char) : Option ℚ :=
  let p := l.span Char.isDigit
  if p.1.isEmpty then none
  else
    match p.2 with
    | [] => some (digitsVal p.1)
    | d :: fs =>
        if d = '.' && fs.all Char.isDigit && !fs.isEmpty then
          some ((digitsVal p.1 : ℚ) + (digitsVal fs : ℚ) / (10 ^ fs.length))
        else none

/-- Strip leading and trailing whitespace. -/
def trimChars (l : List Char) : List Char :=
  ((l.dropWhile Char.isWhitespace).reverse.dropWhile Char.isWhitespace).reverse

/-- Decimal-literal parser standing for the numeric parse done by
`pd.to_numeric(errors='coerce')`. -/
def parseNumQ (s : String) : Option ℚ :=
  match trimChars s.toList with
  | '-' :: rest => (parseUnsigned rest).map (fun q => -q)
  | '+' :: rest => parseUnsigned rest
  | l => parseUnsigned l

/-- Per-cell numeric coercion: numbers pass through, unparsable strings
become missing (`errors='coerce'`), never an error. -/
def coerceCell : Cell → Cell
  | Cell.num q => Cell.num q
  | Cell.inf => Cell.inf
  | Cell.negInf => Cell.negInf
  | Cell.na => Cell.na
  | Cell.str s =>
      match parseNumQ s with
      | some q => Cell.num q
      | none => Cell.na

/-- The five columns coerced to numeric by the source. -/
def numTargets : List String :=
  ["co2", "population", "gdp", "gdp_per_capita", "co2_per_capita"]

/-- `for c in [...]: if c in df.columns: df[c] = pd.to_numeric(df[c], errors='coerce')`. -/
def coerceNums (t : Table) : Table :=
  numTargets.foldl
    (fun acc c =>
      if acc.hasCol c then acc.setCol c ((acc.getCol c).map coerceCell) else acc)
    t

/-! ### Metric Deriver -/

/-- Guard of derivation step 1 (`co2_per_capita`), line 83. -/
def co2PerCapitaGuard (t : Table) : Bool :=
  !t.hasCol "co2_per_capita" && t.hasCol "co2" && t.hasCol "population"

/-- Guard of derivation step 2 (`cumulative_co2`), line 87. -/
def cumulativeCo2Guard (t : Table) : Bool :=
  !t.hasCol "cumulative_co2" && t.hasCol "co2" && t.hasCol "country" && t.hasCol "year"

/-- Guard of derivation step 3 (`global_total_co2` / `co2_pct`), line 92:
note it does NOT test whether the columns already exist. -/
def co2PctGuard (t : Table) : Bool := t.hasCol "co2" && t.hasCol "year"

/-- Guard of derivation step 4 (`global_total_gdp` / `gdp_pct`), line 98:
note it does NOT test whether the columns already exist. -/
def gdpPctGuard (t : Table) : Bool := t.hasCol "gdp" && t.hasCol "year"

/-- Guard of derivation step 5 (`gdp_per_capita`), line 103. -/
def gdpPerCapitaGuard (t : Table) : Bool :=
  !t.hasCol "gdp_per_capita" && t.hasCol "gdp" && t.hasCol "population"

/-- Guard of derivation step 6 (`co2_per_gdp`), line 108. -/
def co2PerGdpGuard (t : Table) : Bool :=
  !t.hasCol "co2_per_gdp" && t.hasCol "co2" && t.hasCol "gdp"

/-- Step 1: `df['co2_per_capita'] = df['co2'] / df['population']`. -/
def deriveStep1 (t : Table) : Table :=
  if co2PerCapitaGuard t then
    t.setCol "co2_per_capita"
      (List.zipWith cdiv (t.getCol "co2") (t.getCol "population"))
  else t

/-- Step 2: sort by `(country, year)`, then
`df['cumulative_co2'] = df.groupby('country')['co2'].cumsum()`. -/
def deriveStep2 (t : Table) : Table :=
  if cumulativeCo2Guard t then
    let t2 := sortByCountryYear t
    t2.setCol "cumulative_co2" (groupCumsum (t2.getCol "country") (t2.getCol "co2"))
  else t

/-- Step 3: `df['global_total_co2'] = df.groupby('year')['co2'].transform('sum')`
then `df['co2_pct'] = (df['co2'] / df['global_total_co2'] * 100).fillna(0)`. -/
def deriveStep3 (t : Table) : Table :=
  if co2PctGuard t then
    let t2 := t.setCol "global_total_co2"
      (groupTransformSum (t.getCol "year") (t.getCol "co2"))
    t2.setCol "co2_pct"
      ((List.zipWith (fun a b => cmul100 (cdiv a b))
        (t2.getCol "co2") (t2.getCol "global_total_co2")).map fillna0)
  else t

/-- Step 4: the `gdp` analogue of step 3. -/
def deriveStep4 (t : Table) : Table :=
  if gdpPctGuard t then
    let t2 := t.setCol "global_total_gdp"
      (groupTransformSum (t.getCol "year") (t.getCol "gdp"))
    t2.setCol "gdp_pct"
      ((List.zipWith (fun a b => cmul100 (cdiv a b))
        (t2.getCol "gdp") (t2.getCol "global_total_gdp")).map fillna0)
  else t

/-- Step 5: `df['gdp_per_capita'] = df['gdp'] / df['population']`. -/
def deriveStep5 (t : Table) : Table :=
  if gdpPerCapitaGuard t then
    t.setCol "gdp_per_capita"
      (List.zipWith cdiv (t.getCol "gdp") (t.getCol "population"))
  else t

/-- Step 6: `df['co2_per_gdp'] = df['co2'] / df['gdp'].replace({0: pd.NA})`. -/
def deriveStep6 (t : Table) : Table :=
  if co2PerGdpGuard t then
    t.setCol "co2_per_gdp"
      (List.zipWith cdiv (t.getCol "co2") ((t.getCol "gdp").map replace0na))
  else t

/-- The Metric Deriver: the six derivation steps of lines 81–110 in order. -/
def derive (t : Table) : Table :=
  deriveStep6 (deriveStep5 (deriveStep4 (deriveStep3 (deriveStep2 (deriveStep1 t)))))

/-- The whole pipeline as the script runs it: every normalization and
derivation block is wrapped in `if not df.empty:`, so an empty table (zero
rows or zero columns) passes through untouched. -/
def appPipeline (t : Table) : Table :=
  if t.rows.isEmpty || t.cols.isEmpty then t
  else derive (coerceNums (renameAll (lowerCols t)))

/-! ### Master table projection -/

/-- The fixed master-column list of line 187. -/
def masterCols : List String :=
  ["country", "year", "co2_pct", "co2_per_capita", "cumulative_co2",
   "gdp_pct", "gdp_per_capita", "co2_per_gdp"]

/-- `df[names]`: column projection in the given order. -/
def selectCols (t : Table) (names : List String) : Table :=
  ⟨names,
   t.rows.map (fun r =>
     names.map (fun c =>
       match t.colIdx c with
       | some i => r.getD i Cell.na
       | none => Cell.na))⟩

/-- Line 195–197: `if c not in master_df.columns: master_df[c] = pd.NA` —
one missing master column is created as an all-missing column. -/
def addMissing (t : Table) (c : String) : Table :=
  if t.hasCol c then t else t.setCol c (List.replicate t.rows.length Cell.na)

/-- Lines 193–198: add every absent master column as an all-missing
column, then project to the fixed eight columns in order. -/
def masterProject (t : Table) : Table :=
  selectCols (masterCols.foldl addMissing t) masterCols

/-- The column `c` as the export sees it: its values when present, an
all-missing column otherwise. -/
def colOrNa (t : Table) (c : String) : List Cell :=
  if t.hasCol c then t.getCol c else List.replicate t.rows.length Cell.na

/-- Projection of one row onto a list of column names. -/
def projRow (cols names : List String) (r : List Cell) : List Cell :=
  names.map (fun c =>
    match cols.findIdx? (fun x => x = c) with
    | some i => r.getD i Cell.na
    | none => Cell.na)

/-- Row-wise projection of a table onto a list of column names. -/
def rowsProj (t : Table) (names : List String) : List (List Cell) :=
  t.rows.map (projRow t.cols names)

/-- Abbreviation for the first five derivation steps. -/
def deriveUpTo5 (t : Table) : Table :=
  deriveStep5 (deriveStep4 (deriveStep3 (deriveStep2 (deriveStep1 t))))

/-- Abbreviation for the first two derivation steps. -/
def deriveUpTo2 (t : Table) : Table := deriveStep2 (deriveStep1 t)

/-- Abbreviation for the first three derivation steps. -/
def deriveUpTo3 (t : Table) : Table := deriveStep3 (deriveUpTo2 t)

/-- Frame property of a non-sorting derivation step: well-formedness and
row count are preserved, columns only grow by names in `names`, and every
column outside `names` keeps its values. -/
def EqFrame (f : Table → Table) (names : List String) : Prop :=
  ∀ t : Table, t.wf →
    (f t).wf ∧ (f t).rows.length = t.rows.length ∧
    (∃ ext, (f t).cols = t.cols ++ ext ∧ ∀ d ∈ ext, d ∈ names) ∧
    (∀ d, d ∉ names → (f t).getCol d = t.getCol d)

/-- The eight column names the Metric Deriver may create or overwrite. -/
def derivedNames : List String :=
  ["co2_per_capita", "cumulative_co2", "global_total_co2", "co2_pct",
   "global_total_gdp", "gdp_pct", "gdp_per_capita", "co2_per_gdp"]

/-- The four column names the Metric Deriver recomputes without an
already-present guard (overwritten when present in the input). -/
def pctNames : List String :=
  ["global_total_co2", "co2_pct", "global_total_gdp", "gdp_pct"]

/-- Example: two rows of one year whose `co2` values sum to zero. -/
def exTotalZero : Table :=
  ⟨["year", "co2"], [[Cell.num 2000, Cell.num 10], [Cell.num 2000, Cell.num (-10)]]⟩

/-- Example: the spec's cumulative-emissions rows for country A. -/
def exCumulA : Table :=
  ⟨["country", "year", "co2"],
   [[Cell.str "A", Cell.num 2000, Cell.num 10], [Cell.str "A", Cell.num 2001, Cell.num 5]]⟩

/-- Example: the spec's two-country year (A with 10, B with 30). -/
def exTwoCountry : Table :=
  ⟨["country", "year", "co2"],
   [[Cell.str "A", Cell.num 2000, Cell.num 10], [Cell.str "B", Cell.num 2000, Cell.num 30]]⟩

/-- Example: one row with `co2 = 100` and `gdp = 0`. -/
def exGdpZero : Table := ⟨["co2", "gdp"], [[Cell.num 100, Cell.num 0]]⟩

/-- Example: a table that already carries a `co2_pct` column. -/
def exPrePct : Table :=
  ⟨["year", "co2", "co2_pct"], [[Cell.num 2000, Cell.num 10, Cell.num 7]]⟩

/-- Example: a table that already carries a `gdp_pct` column. -/
def exPreGdpPct : Table :=
  ⟨["year", "gdp", "gdp_pct"], [[Cell.num 2000, Cell.num 5, Cell.num 7]]⟩

/-- Example: a minimal table with `co2` and `year`. -/
def exCo2Year : Table := ⟨["year", "co2"], [[Cell.num 2000, Cell.num 10]]⟩

/-- Example: a header-only load (columns, zero rows). -/
def exHeaderOnly : Table := ⟨["Country", "Year"], []⟩

/-- Example: already lower-cased columns with a loosely named CO2 column. -/
def exRenameCo2 : Table :=
  ⟨["country", "total_co2", "x"], [[Cell.str "A", Cell.num 1, Cell.num 2]]⟩

/-- Example: a partial table for the master-table projection. -/
def exMaster : Table := ⟨["co2", "country"], [[Cell.num 3, Cell.str "A"]]⟩

/-- Example: a table already carrying `co2_per_capita`. -/
def exGuarded : Table := ⟨["co2_per_capita"], [[Cell.num 3]]⟩

/-- Example: a small country/year table for frame and idempotence checks. -/
def exFrame : Table :=
  ⟨["country", "year", "gdp"], [[Cell.str "A", Cell.num 2000, Cell.num 4]]⟩

/-! ### Basic lemmas about the table operations -/

theorem Table.eq_of (t u : Table) (hc : t.cols = u.cols) (hr : t.rows = u.rows) :
    t = u := by
  cases t; cases u; simp_all

theorem colIdx_spec {t : Table} {c : String} {i : Nat} (h : t.colIdx c = some i) :
    ∃ hi : i < t.cols.length, t.cols[i] = c := by
  unfold Table.colIdx at h
  rw [List.findIdx?_eq_some_iff_getElem] at h
  obtain ⟨hi, h1, _⟩ := h
  exact ⟨hi, by simpa using h1⟩

theorem colIdx_none_iff {t : Table} {c : String} :
    t.colIdx c = none ↔ c ∉ t.cols := by
  unfold Table.colIdx
  rw [List.findIdx?_eq_none_iff]
  constructor
  · intro h hc
    simpa using h c hc
  · intro h x hx
    simp only [decide_eq_false_iff_not]
    intro hxc
    exact h (hxc ▸ hx)

theorem hasCol_iff_mem {t : Table} {c : String} :
    t.hasCol c = true ↔ c ∈ t.cols := by
  unfold Table.hasCol
  simp [List.contains_iff_exists_mem_beq, beq_iff_eq, eq_comm]

theorem hasCol_false_iff {t : Table} {c : String} :
    t.hasCol c = false ↔ c ∉ t.cols := by
  rw [← Bool.not_eq_true, not_iff_not]
  exact hasCol_iff_mem

theorem colIdx_isSome_of_hasCol {t : Table} {c : String} (h : t.hasCol c = true) :
    ∃ i, t.colIdx c = some i := by
  rw [hasCol_iff_mem] at h
  cases hi : t.colIdx c with
  | some i => exact ⟨i, rfl⟩
  | none => exact absurd h (colIdx_none_iff.1 hi)

theorem colIdx_eq_none_of_not_hasCol {t : Table} {c : String} (h : t.hasCol c = false) :
    t.colIdx c = none :=
  colIdx_none_iff.2 (hasCol_false_iff.1 h)

theorem setCol_cols_present {t : Table} {c : String} (h : t.hasCol c = true)
    (vs : List Cell) : (t.setCol c vs).cols = t.cols := by
  obtain ⟨i, hi⟩ := colIdx_isSome_of_hasCol h
  unfold Table.setCol
  rw [hi]

theorem setCol_cols_absent {t : Table} {c : String} (h : t.hasCol c = false)
    (vs : List Cell) : (t.setCol c vs).cols = t.cols ++ [c] := by
  unfold Table.setCol
  rw [colIdx_eq_none_of_not_hasCol h]

theorem setCol_rows_length {t : Table} {c : String} {vs : List Cell}
    (h : vs.length = t.rows.length) :
    (t.setCol c vs).rows.length = t.rows.length := by
  unfold Table.setCol
  cases t.colIdx c <;> simp [List.length_zip, h]

theorem getCol_length {t : Table} {c : String} (h : t.hasCol c = true) :
    (t.getCol c).length = t.rows.length := by
  obtain ⟨i, hi⟩ := colIdx_isSome_of_hasCol h
  unfold Table.getCol
  rw [hi]
  simp

theorem hasCol_setCol_self {t : Table} {c : String} (vs : List Cell) :
    (t.setCol c vs).hasCol c = true := by
  cases h : t.hasCol c with
  | true => rw [hasCol_iff_mem, setCol_cols_present h] ; exact hasCol_iff_mem.1 h
  | false => rw [hasCol_iff_mem, setCol_cols_absent h] ; simp

theorem hasCol_setCol_other {t : Table} {c d : String} (hdc : d ≠ c) (vs : List Cell) :
    (t.setCol c vs).hasCol d = t.hasCol d := by
  cases h : t.hasCol c with
  | true =>
    unfold Table.hasCol
    rw [setCol_cols_present h]
  | false =>
    cases hd : t.hasCol d with
    | true =>
      rw [hasCol_iff_mem, setCol_cols_absent h]
      exact List.mem_append_left _ (hasCol_iff_mem.1 hd)
    | false =>
      rw [hasCol_false_iff, setCol_cols_absent h]
      intro hmem
      rcases List.mem_append.1 hmem with h1 | h2
      · exact hasCol_false_iff.1 hd h1
      · exact hdc (by simpa using h2)

/-- Auxiliary: reading back the cell just written at index `i`. -/
theorem zip_set_getD_same {i : Nat} :
    ∀ (rows : List (List Cell)) (vs : List Cell), rows.length = vs.length →
      (∀ r ∈ rows, i < r.length) →
      ((rows.zip vs).map (fun p => (p.1.set i p.2).getD i Cell.na)) = vs
  | [], [], _, _ => rfl
  | [], _ :: _, h, _ => by simp at h
  | _ :: _, [], h, _ => by simp at h
  | r :: rows, v :: vs, h, hlt => by
    have hi : i < r.length := hlt r (by simp)
    simp only [List.zip_cons_cons, List.map_cons]
    rw [zip_set_getD_same rows vs (by simpa using h) (fun r hr => hlt r (by simp [hr]))]
    simp [List.getD_eq_getElem?_getD, List.getElem?_set_self (by simpa using hi)]

/-- Auxiliary: reading a different index than the one written. -/
theorem zip_set_getD_other {i j : Nat} (hij : j ≠ i) :
    ∀ (rows : List (List Cell)) (vs : List Cell), rows.length = vs.length →
      ((rows.zip vs).map (fun p => (p.1.set i p.2).getD j Cell.na)) =
        rows.map (fun r => r.getD j Cell.na)
  | [], [], _ => rfl
  | [], _ :: _, h => by simp at h
  | _ :: _, [], h => by simp at h
  | r :: rows, v :: vs, h => by
    simp only [List.zip_cons_cons, List.map_cons]
    rw [zip_set_getD_other hij rows vs (by simpa using h)]
    simp [List.getD_eq_getElem?_getD, List.getElem?_set_ne (Ne.symm hij)]

/-- Auxiliary: reading the appended cell at index `n` (the old row length). -/
theorem zip_append_getD_self {n : Nat} :
    ∀ (rows : List (List Cell)) (vs : List Cell), rows.length = vs.length →
      (∀ r ∈ rows, r.length = n) →
      ((rows.zip vs).map (fun p => (p.1 ++ [p.2]).getD n Cell.na)) = vs
  | [], [], _, _ => rfl
  | [], _ :: _, h, _ => by simp at h
  | _ :: _, [], h, _ => by simp at h
  | r :: rows, v :: vs, h, hn => by
    have hr : r.length = n := hn r (by simp)
    simp only [List.zip_cons_cons, List.map_cons]
    rw [zip_append_getD_self rows vs (by simpa using h) (fun r hr => hn r (by simp [hr]))]
    simp [List.getD_eq_getElem?_getD, List.getElem?_append_right (le_of_eq hr), hr]

/-- Auxiliary: reading an index below the old row length after an append. -/
theorem zip_append_getD_lt {j : Nat} :
    ∀ (rows : List (List Cell)) (vs : List Cell), rows.length = vs.length →
      (∀ r ∈ rows, j < r.length) →
      ((rows.zip vs).map (fun p => (p.1 ++ [p.2]).getD j Cell.na)) =
        rows.map (fun r => r.getD j Cell.na)
  | [], [], _, _ => rfl
  | [], _ :: _, h, _ => by simp at h
  | _ :: _, [], h, _ => by simp at h
  | r :: rows, v :: vs, h, hlt => by
    have hj : j < r.length := hlt r (by simp)
    simp only [List.zip_cons_cons, List.map_cons]
    rw [zip_append_getD_lt rows vs (by simpa using h) (fun r hr => hlt r (by simp [hr]))]
    simp [List.getD_eq_getElem?_getD, List.getElem?_append_left hj]

theorem getCol_setCol_self {t : Table} {c : String} {vs : List Cell}
    (hrect : ∀ r ∈ t.rows, r.length = t.cols.length)
    (hlen : vs.length = t.rows.length) :
    (t.setCol c vs).getCol c = vs := by
  unfold Table.setCol
  cases hidx : t.colIdx c with
  | some i =>
    obtain ⟨hi, hci⟩ := colIdx_spec hidx
    unfold Table.getCol
    have : Table.colIdx ⟨t.cols, (t.rows.zip vs).map (fun p => p.1.set i p.2)⟩ c =
        some i := hidx
    rw [this]
    simp only [List.map_map]
    exact zip_set_getD_same t.rows vs hlen.symm
      (fun r hr => (hrect r hr).symm ▸ hi)
  | none =>
    unfold Table.getCol
    have hidx2 : Table.colIdx ⟨t.cols ++ [c], (t.rows.zip vs).map (fun p => p.1 ++ [p.2])⟩ c =
        some t.cols.length := by
      unfold Table.colIdx at hidx ⊢
      rw [List.findIdx?_append, hidx]
      simp
    rw [hidx2]
    simp only [List.map_map]
    exact zip_append_getD_self t.rows vs hlen.symm hrect

theorem getCol_setCol_other {t : Table} {c d : String} {vs : List Cell}
    (hrect : ∀ r ∈ t.rows, r.length = t.cols.length)
    (hlen : vs.length = t.rows.length) (hdc : d ≠ c) :
    (t.setCol c vs).getCol d = t.getCol d := by
  unfold Table.setCol
  cases hidx : t.colIdx c with
  | some i =>
    obtain ⟨hi, hci⟩ := colIdx_spec hidx
    unfold Table.getCol
    cases hd : t.colIdx d with
    | some j =>
      obtain ⟨hj, hdj⟩ := colIdx_spec hd
      have hne : j ≠ i := by
        intro hji
        subst hji
        exact hdc (hdj.symm.trans hci)
      have : Table.colIdx ⟨t.cols, (t.rows.zip vs).map (fun p => p.1.set i p.2)⟩ d =
          some j := hd
      rw [this]
      simp only [List.map_map]
      exact zip_set_getD_other hne t.rows vs hlen.symm
    | none =>
      have : Table.colIdx ⟨t.cols, (t.rows.zip vs).map (fun p => p.1.set i p.2)⟩ d =
          none := hd
      rw [this]
  | none =>
    unfold Table.getCol
    cases hd : t.colIdx d with
    | some j =>
      obtain ⟨hj, hdj⟩ := colIdx_spec hd
      have hidx2 : Table.colIdx ⟨t.cols ++ [c], (t.rows.zip vs).map (fun p => p.1 ++ [p.2])⟩ d =
          some j := by
        unfold Table.colIdx at hd ⊢
        rw [List.findIdx?_append, hd]
        rfl
      rw [hidx2]
      simp only [List.map_map]
      exact zip_append_getD_lt t.rows vs hlen.symm
        (fun r hr => (hrect r hr).symm ▸ hj)
    | none =>
      have hidx2 : Table.colIdx ⟨t.cols ++ [c], (t.rows.zip vs).map (fun p => p.1 ++ [p.2])⟩ d =
          none := by
        unfold Table.colIdx at hd ⊢
        rw [List.findIdx?_append, hd]
        simp only [Option.none_or]
        rw [List.findIdx?_cons]
        simp [Ne.symm hdc]
      rw [hidx2]

theorem wf_setCol {t : Table} {c : String} {vs : List Cell}
    (hwf : t.wf) (hlen : vs.length = t.rows.length) : (t.setCol c vs).wf := by
  obtain ⟨hnd, hrect⟩ := hwf
  unfold Table.setCol
  cases hidx : t.colIdx c with
  | some i =>
    refine ⟨hnd, ?_⟩
    intro r hr
    simp only [List.mem_map] at hr
    obtain ⟨p, hp, rfl⟩ := hr
    have hm := List.of_mem_zip hp
    simp [List.length_set, hrect p.1 hm.1]
  | none =>
    have hc : c ∉ t.cols := colIdx_none_iff.1 hidx
    refine ⟨?_, ?_⟩
    · simp [List.nodup_append, hnd, hc]
    · intro r hr
      simp only [List.mem_map] at hr
      obtain ⟨p, hp, rfl⟩ := hr
      have hm := List.of_mem_zip hp
      simp [hrect p.1 hm.1]

theorem set_getD_self : ∀ (l : List Cell) (i : Nat), i < l.length →
    l.set i (l.getD i Cell.na) = l
  | [], i, h => by simp at h
  | _ :: _, 0, _ => rfl
  | a :: l, i + 1, h => by
    simp only [List.getD_cons_succ, List.set_cons_succ, List.cons.injEq, true_and]
    exact set_getD_self l i (by simpa using h)

theorem zip_getD_set_id {i : Nat} :
    ∀ (rows : List (List Cell)), (∀ r ∈ rows, i < r.length) →
      ((rows.zip (rows.map (fun r => r.getD i Cell.na))).map (fun p => p.1.set i p.2)) = rows
  | [], _ => rfl
  | r :: rows, hlt => by
    simp only [List.map_cons, List.zip_cons_cons]
    rw [zip_getD_set_id rows (fun s hs => hlt s (by simp [hs]))]
    rw [set_getD_self r i (hlt r (by simp))]

theorem setCol_getCol_self {t : Table} {c : String}
    (hrect : ∀ r ∈ t.rows, r.length = t.cols.length)
    (h : t.hasCol c = true) : t.setCol c (t.getCol c) = t := by
  obtain ⟨i, hidx⟩ := colIdx_isSome_of_hasCol h
  obtain ⟨hi, hci⟩ := colIdx_spec hidx
  unfold Table.setCol Table.getCol
  rw [hidx]
  refine Table.eq_of _ _ rfl ?_
  exact zip_getD_set_id t.rows (fun r hr => (hrect r hr).symm ▸ hi)

theorem sort_cols (t : Table) : (sortByCountryYear t).cols = t.cols := rfl

theorem sort_rows_perm (t : Table) : (sortByCountryYear t).rows.Perm t.rows :=
  List.perm_insertionSort _ _

theorem wf_sort {t : Table} (hwf : t.wf) : (sortByCountryYear t).wf :=
  ⟨hwf.1, fun r hr => hwf.2 r ((sort_rows_perm t).mem_iff.1 hr)⟩

theorem sort_rows_length (t : Table) :
    (sortByCountryYear t).rows.length = t.rows.length :=
  (sort_rows_perm t).length_eq

theorem length_groupTransformSum (keys vals : List Cell) :
    (groupTransformSum keys vals).length = keys.length := by
  simp [groupTransformSum]

theorem length_groupCumsum (keys vals : List Cell) :
    (groupCumsum keys vals).length = keys.length := by
  simp [groupCumsum]

/-- Membership-based form of column extension. -/
theorem hasCol_of_cols_ext {t u : Table} {ext : List String} {d : String}
    (hcols : u.cols = t.cols ++ ext) (hd : d ∉ ext) :
    u.hasCol d = t.hasCol d := by
  cases h : t.hasCol d with
  | true =>
    rw [hasCol_iff_mem, hcols]
    exact List.mem_append_left _ (hasCol_iff_mem.1 h)
  | false =>
    rw [hasCol_false_iff, hcols]
    intro hmem
    rcases List.mem_append.1 hmem with h1 | h2
    · exact hasCol_false_iff.1 h h1
    · exact hd h2

/-- A single guarded `setCol` with a value list of full height is an
`EqFrame` step. -/
theorem eqFrame_setCol {t : Table} {c : String} {vs : List Cell} {names : List String}
    (hwf : t.wf) (hlen : vs.length = t.rows.length) (hc : c ∈ names) :
    (t.setCol c vs).wf ∧ (t.setCol c vs).rows.length = t.rows.length ∧
    (∃ ext, (t.setCol c vs).cols = t.cols ++ ext ∧ ∀ d ∈ ext, d ∈ names) ∧
    (∀ d, d ∉ names → (t.setCol c vs).getCol d = t.getCol d) := by
  refine ⟨wf_setCol hwf hlen, setCol_rows_length hlen, ?_, ?_⟩
  · cases h : t.hasCol c with
    | true => exact ⟨[], by simp [setCol_cols_present h], by simp⟩
    | false =>
      exact ⟨[c], by simp [setCol_cols_absent h], by simpa using hc⟩
  · intro d hd
    exact getCol_setCol_other hwf.2 hlen (fun hdc => hd (hdc ▸ hc))

theorem eqFrame_id_case {t : Table} (hwf : t.wf) (names : List String) :
    t.wf ∧ t.rows.length = t.rows.length ∧
    (∃ ext, t.cols = t.cols ++ ext ∧ ∀ d ∈ ext, d ∈ names) ∧
    (∀ d, d ∉ names → t.getCol d = t.getCol d) :=
  ⟨hwf, rfl, ⟨[], by simp, by simp⟩, fun _ _ => rfl⟩

theorem eqFrame_deriveStep1 : EqFrame deriveStep1 ["co2_per_capita"] := by
  intro t hwf
  unfold deriveStep1
  by_cases hg : co2PerCapitaGuard t = true
  · rw [if_pos hg]
    unfold co2PerCapitaGuard at hg
    simp only [Bool.and_eq_true, Bool.not_eq_true'] at hg
    obtain ⟨⟨h1, h2⟩, h3⟩ := hg
    have hlen : (List.zipWith cdiv (t.getCol "co2") (t.getCol "population")).length =
        t.rows.length := by
      rw [List.length_zipWith, getCol_length h2, getCol_length h3]
      simp
    exact eqFrame_setCol hwf hlen (by simp)
  · rw [if_neg hg]
    exact eqFrame_id_case hwf _

theorem eqFrame_deriveStep5 : EqFrame deriveStep5 ["gdp_per_capita"] := by
  intro t hwf
  unfold deriveStep5
  by_cases hg : gdpPerCapitaGuard t = true
  · rw [if_pos hg]
    unfold gdpPerCapitaGuard at hg
    simp only [Bool.and_eq_true, Bool.not_eq_true'] at hg
    obtain ⟨⟨h1, h2⟩, h3⟩ := hg
    have hlen : (List.zipWith cdiv (t.getCol "gdp") (t.getCol "population")).length =
        t.rows.length := by
      rw [List.length_zipWith, getCol_length h2, getCol_length h3]
      simp
    exact eqFrame_setCol hwf hlen (by simp)
  · rw [if_neg hg]
    exact eqFrame_id_case hwf _

theorem eqFrame_deriveStep6 : EqFrame deriveStep6 ["co2_per_gdp"] := by
  intro t hwf
  unfold deriveStep6
  by_cases hg : co2PerGdpGuard t = true
  · rw [if_pos hg]
    unfold co2PerGdpGuard at hg
    simp only [Bool.and_eq_true, Bool.not_eq_true'] at hg
    obtain ⟨⟨h1, h2⟩, h3⟩ := hg
    have hlen : (List.zipWith cdiv (t.getCol "co2")
        ((t.getCol "gdp").map replace0na)).length = t.rows.length := by
      rw [List.length_zipWith, getCol_length h2, List.length_map, getCol_length h3]
      simp
    exact eqFrame_setCol hwf hlen (by simp)
  · rw [if_neg hg]
    exact eqFrame_id_case hwf _

theorem eqFrame_deriveStep3 : EqFrame deriveStep3 ["global_total_co2", "co2_pct"] := by
  intro t hwf
  unfold deriveStep3
  by_cases hg : co2PctGuard t = true
  · rw [if_pos hg]
    unfold co2PctGuard at hg
    simp only [Bool.and_eq_true] at hg
    obtain ⟨h1, h2⟩ := hg
    have hlen1 : (groupTransformSum (t.getCol "year") (t.getCol "co2")).length =
        t.rows.length := by
      rw [length_groupTransformSum, getCol_length h2]
    have F1 := @eqFrame_setCol t "global_total_co2"
      (groupTransformSum (t.getCol "year") (t.getCol "co2"))
      ["global_total_co2", "co2_pct"] hwf hlen1 (by simp)
    obtain ⟨hwf2, hrl2, ⟨ext1, hcols1, hext1⟩, hget1⟩ := F1
    have hco2 : (t.setCol "global_total_co2"
        (groupTransformSum (t.getCol "year") (t.getCol "co2"))).hasCol "co2" = true := by
      rw [hasCol_of_cols_ext hcols1 ?hne]
      · exact h1
      case hne =>
        intro hmem
        have := hext1 _ hmem
        simp at this
    have hgtc : (t.setCol "global_total_co2"
        (groupTransformSum (t.getCol "year") (t.getCol "co2"))).hasCol "global_total_co2" =
        true := hasCol_setCol_self _
    have hlen2 : ((List.zipWith (fun a b => cmul100 (cdiv a b))
        ((t.setCol "global_total_co2"
          (groupTransformSum (t.getCol "year") (t.getCol "co2"))).getCol "co2")
        ((t.setCol "global_total_co2"
          (groupTransformSum (t.getCol "year") (t.getCol "co2"))).getCol
            "global_total_co2")).map fillna0).length =
        (t.setCol "global_total_co2"
          (groupTransformSum (t.getCol "year") (t.getCol "co2"))).rows.length := by
      rw [List.length_map, List.length_zipWith, getCol_length hco2, getCol_length hgtc]
      simp
    have F2 := @eqFrame_setCol _ "co2_pct" _
      ["global_total_co2", "co2_pct"] hwf2 hlen2 (by simp)
    obtain ⟨hwf3, hrl3, ⟨ext2, hcols2, hext2⟩, hget2⟩ := F2
    refine ⟨hwf3, by rw [hrl3, hrl2], ⟨ext1 ++ ext2, ?_, ?_⟩, ?_⟩
    · rw [hcols2, hcols1, List.append_assoc]
    · intro d hd
      rcases List.mem_append.1 hd with h | h
      · exact hext1 d h
      · exact hext2 d h
    · intro d hd
      rw [hget2 d hd, hget1 d hd]
  · rw [if_neg hg]
    exact eqFrame_id_case hwf _

theorem eqFrame_deriveStep4 : EqFrame deriveStep4 ["global_total_gdp", "gdp_pct"] := by
  intro t hwf
  unfold deriveStep4
  by_cases hg : gdpPctGuard t = true
  · rw [if_pos hg]
    unfold gdpPctGuard at hg
    simp only [Bool.and_eq_true] at hg
    obtain ⟨h1, h2⟩ := hg
    have hlen1 : (groupTransformSum (t.getCol "year") (t.getCol "gdp")).length =
        t.rows.length := by
      rw [length_groupTransformSum, getCol_length h2]
    have F1 := @eqFrame_setCol t "global_total_gdp"
      (groupTransformSum (t.getCol "year") (t.getCol "gdp"))
      ["global_total_gdp", "gdp_pct"] hwf hlen1 (by simp)
    obtain ⟨hwf2, hrl2, ⟨ext1, hcols1, hext1⟩, hget1⟩ := F1
    have hgdp : (t.setCol "global_total_gdp"
        (groupTransformSum (t.getCol "year") (t.getCol "gdp"))).hasCol "gdp" = true := by
      rw [hasCol_of_cols_ext hcols1 ?hne]
      · exact h1
      case hne =>
        intro hmem
        have := hext1 _ hmem
        simp at this
    have hgtg : (t.setCol "global_total_gdp"
        (groupTransformSum (t.getCol "year") (t.getCol "gdp"))).hasCol "global_total_gdp" =
        true := hasCol_setCol_self _
    have hlen2 : ((List.zipWith (fun a b => cmul100 (cdiv a b))
        ((t.setCol "global_total_gdp"
          (groupTransformSum (t.getCol "year") (t.getCol "gdp"))).getCol "gdp")
        ((t.setCol "global_total_gdp"
          (groupTransformSum (t.getCol "year") (t.getCol "gdp"))).getCol
            "global_total_gdp")).map fillna0).length =
        (t.setCol "global_total_gdp"
          (groupTransformSum (t.getCol "year") (t.getCol "gdp"))).rows.length := by
      rw [List.length_map, List.length_zipWith, getCol_length hgdp, getCol_length hgtg]
      simp
    have F2 := @eqFrame_setCol _ "gdp_pct" _
      ["global_total_gdp", "gdp_pct"] hwf2 hlen2 (by simp)
    obtain ⟨hwf3, hrl3, ⟨ext2, hcols2, hext2⟩, hget2⟩ := F2
    refine ⟨hwf3, by rw [hrl3, hrl2], ⟨ext1 ++ ext2, ?_, ?_⟩, ?_⟩
    · rw [hcols2, hcols1, List.append_assoc]
    · intro d hd
      rcases List.mem_append.1 hd with h | h
      · exact hext1 d h
      · exact hext2 d h
    · intro d hd
      rw [hget2 d hd, hget1 d hd]
  · rw [if_neg hg]
    exact eqFrame_id_case hwf _

theorem sort_getCol_perm (t : Table) (d : String) :
    ((sortByCountryYear t).getCol d).Perm (t.getCol d) := by
  unfold Table.getCol
  have hidx : (sortByCountryYear t).colIdx d = t.colIdx d := rfl
  rw [hidx]
  cases t.colIdx d with
  | some i => exact (sort_rows_perm t).map _
  | none => exact List.Perm.refl _

theorem step2_frame : ∀ t : Table, t.wf →
    (deriveStep2 t).wf ∧ (deriveStep2 t).rows.length = t.rows.length ∧
    (∃ ext, (deriveStep2 t).cols = t.cols ++ ext ∧ ∀ d ∈ ext, d ∈ ["cumulative_co2"]) ∧
    (∀ d, d ∉ ["cumulative_co2"] → ((deriveStep2 t).getCol d).Perm (t.getCol d)) := by
  intro t hwf
  unfold deriveStep2
  by_cases hg : cumulativeCo2Guard t = true
  · rw [if_pos hg]
    unfold cumulativeCo2Guard at hg
    simp only [Bool.and_eq_true, Bool.not_eq_true'] at hg
    obtain ⟨⟨⟨h0, h1⟩, h2⟩, h3⟩ := hg
    have hwf2 : (sortByCountryYear t).wf := wf_sort hwf
    have hcty : (sortByCountryYear t).hasCol "country" = true := h2
    have hlen : (groupCumsum ((sortByCountryYear t).getCol "country")
        ((sortByCountryYear t).getCol "co2")).length =
        (sortByCountryYear t).rows.length := by
      rw [length_groupCumsum, getCol_length hcty]
    have F := @eqFrame_setCol _ "cumulative_co2" _ ["cumulative_co2"]
      hwf2 hlen (by simp)
    obtain ⟨hwf3, hrl3, ⟨ext, hcols, hext⟩, hget⟩ := F
    refine ⟨hwf3, by rw [hrl3, sort_rows_length], ⟨ext, ?_, hext⟩, ?_⟩
    · rw [hcols, sort_cols]
    · intro d hd
      rw [hget d hd]
      exact sort_getCol_perm t d
  · rw [if_neg hg]
    exact ⟨hwf, rfl, ⟨[], by simp, by simp⟩, fun _ _ => List.Perm.refl _⟩

theorem derive_frame : ∀ t : Table, t.wf →
    (derive t).wf ∧ (derive t).rows.length = t.rows.length ∧
    (∃ ext, (derive t).cols = t.cols ++ ext ∧ ∀ d ∈ ext, d ∈ derivedNames) ∧
    (∀ d, d ∉ derivedNames → ((derive t).getCol d).Perm (t.getCol d)) := by
  intro t hwf
  unfold derive
  obtain ⟨w1, l1, ⟨e1, c1, m1⟩, g1⟩ := eqFrame_deriveStep1 t hwf
  obtain ⟨w2, l2, ⟨e2, c2, m2⟩, g2⟩ := step2_frame _ w1
  obtain ⟨w3, l3, ⟨e3, c3, m3⟩, g3⟩ := eqFrame_deriveStep3 _ w2
  obtain ⟨w4, l4, ⟨e4, c4, m4⟩, g4⟩ := eqFrame_deriveStep4 _ w3
  obtain ⟨w5, l5, ⟨e5, c5, m5⟩, g5⟩ := eqFrame_deriveStep5 _ w4
  obtain ⟨w6, l6, ⟨e6, c6, m6⟩, g6⟩ := eqFrame_deriveStep6 _ w5
  refine ⟨w6, by rw [l6, l5, l4, l3, l2, l1], ⟨e1 ++ (e2 ++ (e3 ++ (e4 ++ (e5 ++ e6)))), ?_, ?_⟩, ?_⟩
  · rw [c6, c5, c4, c3, c2, c1]
    simp [List.append_assoc]
  · intro d hd
    unfold derivedNames
    simp only [List.mem_append] at hd
    rcases hd with h | h | h | h | h | h
    · have := m1 d h ; simp at this ; simp [this]
    · have := m2 d h ; simp at this ; simp [this]
    · have := m3 d h ; simp at this ; rcases this with h | h <;> simp [h]
    · have := m4 d h ; simp at this ; rcases this with h | h <;> simp [h]
    · have := m5 d h ; simp at this ; simp [this]
    · have := m6 d h ; simp at this ; simp [this]
  · intro d hd
    have hd1 : d ∉ ["co2_per_capita"] := by
      intro h ; apply hd ; simp at h ; simp [derivedNames, h]
    have hd2 : d ∉ ["cumulative_co2"] := by
      intro h ; apply hd ; simp at h ; simp [derivedNames, h]
    have hd3 : d ∉ ["global_total_co2", "co2_pct"] := by
      intro h ; apply hd ; simp at h ; rcases h with h | h <;> simp [derivedNames, h]
    have hd4 : d ∉ ["global_total_gdp", "gdp_pct"] := by
      intro h ; apply hd ; simp at h ; rcases h with h | h <;> simp [derivedNames, h]
    have hd5 : d ∉ ["gdp_per_capita"] := by
      intro h ; apply hd ; simp at h ; simp [derivedNames, h]
    have hd6 : d ∉ ["co2_per_gdp"] := by
      intro h ; apply hd ; simp at h ; simp [derivedNames, h]
    show ((deriveStep6 _).getCol d).Perm (t.getCol d)
    rw [g6 d hd6, g5 d hd5, g4 d hd4, g3 d hd3]
    exact (g2 d hd2).trans (by rw [g1 d hd1])

theorem cdiv_na_right (x : Cell) : cdiv x Cell.na = Cell.na := by
  cases x <;> rfl

theorem cdiv_replace0na (x y : Cell) :
    cdiv x (replace0na y) = if y = Cell.num 0 then Cell.na else cdiv x y := by
  unfold replace0na
  by_cases h : y = Cell.num 0
  · simp [h, cdiv_na_right]
  · simp [h]

theorem getD_zipWith {f : Cell → Cell → Cell} {xs ys : List Cell} {i : Nat}
    (hx : i < xs.length) (hy : i < ys.length) :
    (List.zipWith f xs ys).getD i Cell.na = f (xs.getD i Cell.na) (ys.getD i Cell.na) := by
  rw [List.getD_eq_getElem?_getD, List.getD_eq_getElem?_getD, List.getD_eq_getElem?_getD,
    List.getElem?_zipWith, List.getElem?_eq_getElem hx, List.getElem?_eq_getElem hy]
  simp

theorem getD_map {f : Cell → Cell} {l : List Cell} {i : Nat} (hi : i < l.length) :
    (l.map f).getD i Cell.na = f (l.getD i Cell.na) := by
  rw [List.getD_eq_getElem?_getD, List.getD_eq_getElem?_getD, List.getElem?_map,
    List.getElem?_eq_getElem hi]
  simp

theorem hasCol_chain {t u : Table} {ext names : List String} {d : String}
    (hcols : u.cols = t.cols ++ ext) (h : ∀ x ∈ ext, x ∈ names) (hd : d ∉ names) :
    u.hasCol d = t.hasCol d :=
  hasCol_of_cols_ext hcols (fun hm => hd (h d hm))

theorem derive_eq_step6 (t : Table) : derive t = deriveStep6 (deriveUpTo5 t) := rfl

theorem deriveUpTo5_facts (t : Table) (hwf : t.wf) :
    (deriveUpTo5 t).wf ∧ (deriveUpTo5 t).rows.length = t.rows.length ∧
    (∀ d, d ∉ ["co2_per_capita", "cumulative_co2", "global_total_co2", "co2_pct",
        "global_total_gdp", "gdp_pct", "gdp_per_capita"] →
      (deriveUpTo5 t).hasCol d = t.hasCol d) := by
  unfold deriveUpTo5
  obtain ⟨w1, l1, ⟨e1, c1, m1⟩, g1⟩ := eqFrame_deriveStep1 t hwf
  obtain ⟨w2, l2, ⟨e2, c2, m2⟩, g2⟩ := step2_frame _ w1
  obtain ⟨w3, l3, ⟨e3, c3, m3⟩, g3⟩ := eqFrame_deriveStep3 _ w2
  obtain ⟨w4, l4, ⟨e4, c4, m4⟩, g4⟩ := eqFrame_deriveStep4 _ w3
  obtain ⟨w5, l5, ⟨e5, c5, m5⟩, g5⟩ := eqFrame_deriveStep5 _ w4
  refine ⟨w5, by rw [l5, l4, l3, l2, l1], ?_⟩
  intro d hd
  simp only [List.mem_cons, List.not_mem_nil, or_false, not_or] at hd
  obtain ⟨n1, n2, n3, n4, n5, n6, n7⟩ := hd
  rw [hasCol_chain c5 m5 (by simp [n7]), hasCol_chain c4 m4 (by simp [n5, n6]),
    hasCol_chain c3 m3 (by simp [n3, n4]), hasCol_chain c2 m2 (by simp [n2]),
    hasCol_chain c1 m1 (by simp [n1])]

/-- C5, general part: when `co2` and `gdp` are columns and `co2_per_gdp` is
not, the Metric Deriver adds `co2_per_gdp`, and on every row it equals
`co2 / gdp` except that a `gdp` equal to exactly `0` yields a missing
value (never an infinity: the code divides by `gdp.replace({0: pd.NA})`). -/
theorem co2_per_gdp_spec (t : Table) (hwf : t.wf)
    (habs : t.hasCol "co2_per_gdp" = false)
    (hco2 : t.hasCol "co2" = true) (hgdp : t.hasCol "gdp" = true) :
    (derive t).hasCol "co2_per_gdp" = true ∧
    (derive t).rows.length = t.rows.length ∧
    ∀ i, i < (derive t).rows.length →
      ((derive t).getCol "co2_per_gdp").getD i Cell.na =
        (if ((derive t).getCol "gdp").getD i Cell.na = Cell.num 0 then Cell.na
         else cdiv (((derive t).getCol "co2").getD i Cell.na)
                   (((derive t).getCol "gdp").getD i Cell.na)) := by
  obtain ⟨w5, l5, hpres⟩ := deriveUpTo5_facts t hwf
  have h5co2 : (deriveUpTo5 t).hasCol "co2" = true := by
    rw [hpres "co2" (by simp)] ; exact hco2
  have h5gdp : (deriveUpTo5 t).hasCol "gdp" = true := by
    rw [hpres "gdp" (by simp)] ; exact hgdp
  have h5abs : (deriveUpTo5 t).hasCol "co2_per_gdp" = false := by
    rw [hpres "co2_per_gdp" (by simp)] ; exact habs
  have hguard : co2PerGdpGuard (deriveUpTo5 t) = true := by
    unfold co2PerGdpGuard
    rw [h5co2, h5gdp, h5abs]
    rfl
  have hstep : derive t = (deriveUpTo5 t).setCol "co2_per_gdp"
      (List.zipWith cdiv ((deriveUpTo5 t).getCol "co2")
        (((deriveUpTo5 t).getCol "gdp").map replace0na)) := by
    rw [derive_eq_step6]
    unfold deriveStep6
    rw [if_pos hguard]
  have hlenco2 : ((deriveUpTo5 t).getCol "co2").length = (deriveUpTo5 t).rows.length :=
    getCol_length h5co2
  have hlengdp : ((deriveUpTo5 t).getCol "gdp").length = (deriveUpTo5 t).rows.length :=
    getCol_length h5gdp
  have hlen : (List.zipWith cdiv ((deriveUpTo5 t).getCol "co2")
      (((deriveUpTo5 t).getCol "gdp").map replace0na)).length =
      (deriveUpTo5 t).rows.length := by
    rw [List.length_zipWith, hlenco2, List.length_map, hlengdp]
    simp
  have hrl : (derive t).rows.length = t.rows.length := by
    rw [hstep, setCol_rows_length hlen, l5]
  have hgetNew : (derive t).getCol "co2_per_gdp" =
      List.zipWith cdiv ((deriveUpTo5 t).getCol "co2")
        (((deriveUpTo5 t).getCol "gdp").map replace0na) := by
    rw [hstep]
    exact getCol_setCol_self w5.2 hlen
  have hgetGdp : (derive t).getCol "gdp" = (deriveUpTo5 t).getCol "gdp" := by
    rw [hstep]
    exact getCol_setCol_other w5.2 hlen (by decide)
  have hgetCo2 : (derive t).getCol "co2" = (deriveUpTo5 t).getCol "co2" := by
    rw [hstep]
    exact getCol_setCol_other w5.2 hlen (by decide)
  refine ⟨by rw [hstep] ; exact hasCol_setCol_self _, hrl, ?_⟩
  intro i hi
  have hi5 : i < (deriveUpTo5 t).rows.length := by
    rw [l5, ← hrl] ; exact hi
  rw [hgetNew, hgetGdp, hgetCo2]
  rw [getD_zipWith (by rw [hlenco2] ; exact hi5)
    (by rw [List.length_map, hlengdp] ; exact hi5)]
  rw [getD_map (by rw [hlengdp] ; exact hi5)]
  exact cdiv_replace0na _ _

theorem addMissing_facts (t : Table) (c : String) (hwf : t.wf) :
    (addMissing t c).wf ∧ (addMissing t c).rows.length = t.rows.length ∧
    (∀ d, colOrNa (addMissing t c) d = colOrNa t d) ∧
    (addMissing t c).hasCol c = true ∧
    (∀ d, t.hasCol d = true → (addMissing t c).hasCol d = true) := by
  unfold addMissing
  by_cases h : t.hasCol c = true
  · rw [if_pos h]
    exact ⟨hwf, rfl, fun _ => rfl, h, fun _ hd => hd⟩
  · rw [if_neg h]
    have hfalse : t.hasCol c = false := by
      cases hc : t.hasCol c
      · rfl
      · exact absurd hc h
    have hlen : (List.replicate t.rows.length Cell.na).length = t.rows.length := by simp
    refine ⟨wf_setCol hwf hlen, setCol_rows_length hlen, ?_, hasCol_setCol_self _, ?_⟩
    · intro d
      by_cases hdc : d = c
      · subst hdc
        unfold colOrNa
        rw [hasCol_setCol_self, if_pos rfl, hfalse]
        simp only [Bool.false_eq_true, if_false]
        exact getCol_setCol_self hwf.2 hlen
      · unfold colOrNa
        rw [hasCol_setCol_other hdc, setCol_rows_length hlen]
        cases hd : t.hasCol d
        · rfl
        · simp only [if_pos rfl]
          exact getCol_setCol_other hwf.2 hlen hdc
    · intro d hd
      by_cases hdc : d = c
      · subst hdc ; exact hasCol_setCol_self _
      · rw [hasCol_setCol_other hdc] ; exact hd

theorem foldl_addMissing_hasCol_mono : ∀ (names : List String) (t : Table), t.wf →
    ∀ d, t.hasCol d = true → (names.foldl addMissing t).hasCol d = true
  | [], _, _, _, hd => hd
  | c :: names, t, hwf, d, hd => by
    obtain ⟨aw, _, _, _, am⟩ := addMissing_facts t c hwf
    exact foldl_addMissing_hasCol_mono names (addMissing t c) aw d (am d hd)

theorem foldl_addMissing_facts : ∀ (names : List String) (t : Table), t.wf →
    (names.foldl addMissing t).wf ∧
    (names.foldl addMissing t).rows.length = t.rows.length ∧
    (∀ d, colOrNa (names.foldl addMissing t) d = colOrNa t d) ∧
    (∀ c ∈ names, (names.foldl addMissing t).hasCol c = true)
  | [], t, hwf => ⟨hwf, rfl, fun _ => rfl, by simp⟩
  | c :: names, t, hwf => by
    rw [List.foldl_cons]
    obtain ⟨aw, al, ac, ah, am⟩ := addMissing_facts t c hwf
    obtain ⟨fw, fl, fc, fh⟩ := foldl_addMissing_facts names (addMissing t c) aw
    refine ⟨fw, by rw [fl, al], fun d => by rw [fc d, ac d], ?_⟩
    intro x hx
    rcases List.mem_cons.1 hx with h | h
    · rw [h]
      exact foldl_addMissing_hasCol_mono names (addMissing t c) aw c ah
    · exact fh x h

theorem map_getD_lt {α β : Type _} (f : α → β) (l : List α) (j : Nat)
    (hj : j < l.length) (d : β) :
    (l.map f).getD j d = f (l.get ⟨j, hj⟩) := by
  rw [List.getD_eq_getElem?_getD, List.getElem?_map, List.getElem?_eq_getElem hj]
  simp

theorem getCol_selectCols {t : Table} {names : List String} {c : String}
    (hc : c ∈ names) {i : Nat} (hidx : t.colIdx c = some i) :
    (selectCols t names).getCol c = t.getCol c := by
  have hsome : ∃ j, (selectCols t names).colIdx c = some j := by
    cases h : (selectCols t names).colIdx c with
    | some j => exact ⟨j, rfl⟩
    | none => exact absurd hc (colIdx_none_iff.1 h)
  obtain ⟨j, hj⟩ := hsome
  obtain ⟨hjlt, hnj⟩ := colIdx_spec hj
  unfold Table.getCol
  rw [hj, hidx]
  dsimp only [selectCols]
  rw [List.map_map]
  apply List.map_congr_left
  intro r _
  have hjlt2 : j < names.length := hjlt
  show (names.map _).getD j Cell.na = r.getD i Cell.na
  rw [map_getD_lt _ _ _ hjlt2]
  have : names.get ⟨j, hjlt2⟩ = c := by
    simpa using hnj
  rw [this, hidx]

/-- C7: the master-table export projects onto the fixed eight columns
`country, year, co2_pct, co2_per_capita, cumulative_co2, gdp_pct,
gdp_per_capita, co2_per_gdp` in that order, creating any missing one as an
all-missing column; rows of columns already present keep their values. -/
theorem master_export_spec (t : Table) (hwf : t.wf) :
    (masterProject t).cols = masterCols ∧
    (masterProject t).rows.length = t.rows.length ∧
    ∀ c ∈ masterCols, (masterProject t).getCol c =
      (if t.hasCol c = true then t.getCol c else List.replicate t.rows.length Cell.na) := by
  obtain ⟨fw, fl, fc, fh⟩ := foldl_addMissing_facts masterCols t hwf
  refine ⟨rfl, ?_, ?_⟩
  · show (selectCols _ masterCols).rows.length = _
    unfold selectCols
    simpa using fl
  · intro c hc
    have hhas := fh c hc
    obtain ⟨i, hidx⟩ := colIdx_isSome_of_hasCol hhas
    show (selectCols _ masterCols).getCol c = _
    rw [getCol_selectCols hc hidx]
    have h1 : colOrNa (masterCols.foldl addMissing t) c = colOrNa t c := fc c
    unfold colOrNa at h1
    rw [hhas] at h1
    simpa using h1

theorem getD_eq_get {l : List Cell} {i : Nat} (hi : i < l.length) :
    l.getD i Cell.na = l.get ⟨i, hi⟩ := by
  rw [List.getD_eq_getElem?_getD, List.getElem?_eq_getElem hi]
  simp

theorem groupTransformSum_getD {keys vals : List Cell} {i : Nat} (hi : i < keys.length) :
    (groupTransformSum keys vals).getD i Cell.na =
      (if keys.getD i Cell.na = Cell.na then Cell.na
       else sumSkipNA ((keys.zip vals).filterMap
         (fun p => if p.1 = keys.getD i Cell.na then some p.2 else none))) := by
  unfold groupTransformSum
  rw [map_getD_lt _ _ _ hi, getD_eq_get hi]

theorem deriveUpTo2_facts (t : Table) (hwf : t.wf) :
    (deriveUpTo2 t).wf ∧ (deriveUpTo2 t).rows.length = t.rows.length ∧
    (∀ d, d ∉ ["co2_per_capita", "cumulative_co2"] →
      (deriveUpTo2 t).hasCol d = t.hasCol d) := by
  unfold deriveUpTo2
  obtain ⟨w1, l1, ⟨e1, c1, m1⟩, g1⟩ := eqFrame_deriveStep1 t hwf
  obtain ⟨w2, l2, ⟨e2, c2, m2⟩, g2⟩ := step2_frame _ w1
  refine ⟨w2, by rw [l2, l1], ?_⟩
  intro d hd
  simp only [List.mem_cons, List.not_mem_nil, or_false, not_or] at hd
  obtain ⟨n1, n2⟩ := hd
  rw [hasCol_chain c2 m2 (by simp [n2]), hasCol_chain c1 m1 (by simp [n1])]

theorem derive_eq_steps3456 (t : Table) :
    derive t = deriveStep6 (deriveStep5 (deriveStep4 (deriveStep3 (deriveUpTo2 t)))) := rfl

/-- The values a table keeps through steps 4–6 (columns not named by
those steps). -/
theorem steps456_getCol (u : Table) (hwf : u.wf) (d : String)
    (hd : d ∉ ["global_total_gdp", "gdp_pct", "gdp_per_capita", "co2_per_gdp"]) :
    (deriveStep6 (deriveStep5 (deriveStep4 u))).getCol d = u.getCol d ∧
    (deriveStep6 (deriveStep5 (deriveStep4 u))).wf ∧
    (deriveStep6 (deriveStep5 (deriveStep4 u))).rows.length = u.rows.length ∧
    (deriveStep6 (deriveStep5 (deriveStep4 u))).hasCol d = u.hasCol d := by
  simp only [List.mem_cons, List.not_mem_nil, or_false, not_or] at hd
  obtain ⟨n1, n2, n3, n4⟩ := hd
  obtain ⟨w4, l4, ⟨e4, c4, m4⟩, g4⟩ := eqFrame_deriveStep4 u hwf
  obtain ⟨w5, l5, ⟨e5, c5, m5⟩, g5⟩ := eqFrame_deriveStep5 _ w4
  obtain ⟨w6, l6, ⟨e6, c6, m6⟩, g6⟩ := eqFrame_deriveStep6 _ w5
  refine ⟨?_, w6, by rw [l6, l5, l4], ?_⟩
  · rw [g6 d (by simp [n4]), g5 d (by simp [n3]), g4 d (by simp [n1, n2])]
  · rw [hasCol_chain c6 m6 (by simp [n4]), hasCol_chain c5 m5 (by simp [n3]),
      hasCol_chain c4 m4 (by simp [n1, n2])]

/-- C6: whenever `co2` and `year` are columns, the Metric Deriver sets
`global_total_co2` on every row to the sum of `co2` over all rows sharing
that row's `year`, skipping missing values, with a missing result only on
a missing `year` key. -/
theorem global_total_co2_spec (t : Table) (hwf : t.wf)
    (hco2 : t.hasCol "co2" = true) (hyear : t.hasCol "year" = true)
    (hy : ∀ y ∈ t.getCol "year", y ≠ Cell.na) :
    (derive t).hasCol "global_total_co2" = true ∧
    (derive t).rows.length = t.rows.length ∧
    ∀ i, i < (derive t).rows.length →
      ((derive t).getCol "global_total_co2").getD i Cell.na =
        sumSkipNA ((((derive t).getCol "year").zip ((derive t).getCol "co2")).filterMap
          (fun p => if p.1 = ((derive t).getCol "year").getD i Cell.na then some p.2
                    else none)) := by
  obtain ⟨wu, lu, pres⟩ := deriveUpTo2_facts t hwf
  have huco2 : (deriveUpTo2 t).hasCol "co2" = true := by
    rw [pres "co2" (by simp)] ; exact hco2
  have huyear : (deriveUpTo2 t).hasCol "year" = true := by
    rw [pres "year" (by simp)] ; exact hyear
  have hguard : co2PctGuard (deriveUpTo2 t) = true := by
    unfold co2PctGuard ; rw [huco2, huyear] ; rfl
  have hlentot : (groupTransformSum ((deriveUpTo2 t).getCol "year")
      ((deriveUpTo2 t).getCol "co2")).length = (deriveUpTo2 t).rows.length := by
    rw [length_groupTransformSum, getCol_length huyear]
  have hwfu2 : ((deriveUpTo2 t).setCol "global_total_co2"
      (groupTransformSum ((deriveUpTo2 t).getCol "year")
        ((deriveUpTo2 t).getCol "co2"))).wf := wf_setCol wu hlentot
  have hu2gtc : ((deriveUpTo2 t).setCol "global_total_co2"
      (groupTransformSum ((deriveUpTo2 t).getCol "year")
        ((deriveUpTo2 t).getCol "co2"))).getCol "global_total_co2" =
      groupTransformSum ((deriveUpTo2 t).getCol "year") ((deriveUpTo2 t).getCol "co2") :=
    getCol_setCol_self wu.2 hlentot
  have hu2co2 : ((deriveUpTo2 t).setCol "global_total_co2"
      (groupTransformSum ((deriveUpTo2 t).getCol "year")
        ((deriveUpTo2 t).getCol "co2"))).getCol "co2" = (deriveUpTo2 t).getCol "co2" :=
    getCol_setCol_other wu.2 hlentot (by decide)
  have hu2year : ((deriveUpTo2 t).setCol "global_total_co2"
      (groupTransformSum ((deriveUpTo2 t).getCol "year")
        ((deriveUpTo2 t).getCol "co2"))).getCol "year" = (deriveUpTo2 t).getCol "year" :=
    getCol_setCol_other wu.2 hlentot (by decide)
  have hu2co2has : ((deriveUpTo2 t).setCol "global_total_co2"
      (groupTransformSum ((deriveUpTo2 t).getCol "year")
        ((deriveUpTo2 t).getCol "co2"))).hasCol "co2" = true := by
    rw [hasCol_setCol_other (by decide)] ; exact huco2
  have hu2gtchas : ((deriveUpTo2 t).setCol "global_total_co2"
      (groupTransformSum ((deriveUpTo2 t).getCol "year")
        ((deriveUpTo2 t).getCol "co2"))).hasCol "global_total_co2" = true :=
    hasCol_setCol_self _
  have hu2len : ((deriveUpTo2 t).setCol "global_total_co2"
      (groupTransformSum ((deriveUpTo2 t).getCol "year")
        ((deriveUpTo2 t).getCol "co2"))).rows.length = (deriveUpTo2 t).rows.length :=
    setCol_rows_length hlentot
  have hstep3 : deriveStep3 (deriveUpTo2 t) =
      ((deriveUpTo2 t).setCol "global_total_co2"
        (groupTransformSum ((deriveUpTo2 t).getCol "year")
          ((deriveUpTo2 t).getCol "co2"))).setCol "co2_pct"
        ((List.zipWith (fun a b => cmul100 (cdiv a b))
          (((deriveUpTo2 t).setCol "global_total_co2"
            (groupTransformSum ((deriveUpTo2 t).getCol "year")
              ((deriveUpTo2 t).getCol "co2"))).getCol "co2")
          (((deriveUpTo2 t).setCol "global_total_co2"
            (groupTransformSum ((deriveUpTo2 t).getCol "year")
              ((deriveUpTo2 t).getCol "co2"))).getCol "global_total_co2")).map fillna0) := by
    unfold deriveStep3
    rw [if_pos hguard]
  have hlenpct : ((List.zipWith (fun a b => cmul100 (cdiv a b))
      (((deriveUpTo2 t).setCol "global_total_co2"
        (groupTransformSum ((deriveUpTo2 t).getCol "year")
          ((deriveUpTo2 t).getCol "co2"))).getCol "co2")
      (((deriveUpTo2 t).setCol "global_total_co2"
        (groupTransformSum ((deriveUpTo2 t).getCol "year")
          ((deriveUpTo2 t).getCol "co2"))).getCol "global_total_co2")).map fillna0).length =
      ((deriveUpTo2 t).setCol "global_total_co2"
        (groupTransformSum ((deriveUpTo2 t).getCol "year")
          ((deriveUpTo2 t).getCol "co2"))).rows.length := by
    rw [List.length_map, List.length_zipWith, getCol_length hu2co2has,
      getCol_length hu2gtchas]
    simp
  have hwf3 : (deriveStep3 (deriveUpTo2 t)).wf := by
    rw [hstep3] ; exact wf_setCol hwfu2 hlenpct
  have h3gtc : (deriveStep3 (deriveUpTo2 t)).getCol "global_total_co2" =
      groupTransformSum ((deriveUpTo2 t).getCol "year") ((deriveUpTo2 t).getCol "co2") := by
    rw [hstep3, getCol_setCol_other hwfu2.2 hlenpct (by decide), hu2gtc]
  have h3year : (deriveStep3 (deriveUpTo2 t)).getCol "year" =
      (deriveUpTo2 t).getCol "year" := by
    rw [hstep3, getCol_setCol_other hwfu2.2 hlenpct (by decide), hu2year]
  have h3co2 : (deriveStep3 (deriveUpTo2 t)).getCol "co2" =
      (deriveUpTo2 t).getCol "co2" := by
    rw [hstep3, getCol_setCol_other hwfu2.2 hlenpct (by decide), hu2co2]
  have h3gtchas : (deriveStep3 (deriveUpTo2 t)).hasCol "global_total_co2" = true := by
    rw [hstep3, hasCol_setCol_other (by decide)] ; exact hu2gtchas
  have h3len : (deriveStep3 (deriveUpTo2 t)).rows.length = (deriveUpTo2 t).rows.length := by
    rw [hstep3, setCol_rows_length hlenpct, hu2len]
  obtain ⟨sg, sw, sl, sh⟩ := steps456_getCol (deriveStep3 (deriveUpTo2 t)) hwf3
    "global_total_co2" (by decide)
  obtain ⟨sgy, _, _, _⟩ := steps456_getCol (deriveStep3 (deriveUpTo2 t)) hwf3
    "year" (by decide)
  obtain ⟨sgc, _, _, _⟩ := steps456_getCol (deriveStep3 (deriveUpTo2 t)) hwf3
    "co2" (by decide)
  have hTgtc : (derive t).getCol "global_total_co2" =
      groupTransformSum ((deriveUpTo2 t).getCol "year") ((deriveUpTo2 t).getCol "co2") := by
    rw [derive_eq_steps3456, sg, h3gtc]
  have hTyear : (derive t).getCol "year" = (deriveUpTo2 t).getCol "year" := by
    rw [derive_eq_steps3456, sgy, h3year]
  have hTco2 : (derive t).getCol "co2" = (deriveUpTo2 t).getCol "co2" := by
    rw [derive_eq_steps3456, sgc, h3co2]
  have hTlen : (derive t).rows.length = t.rows.length := by
    rw [derive_eq_steps3456, sl, h3len, lu]
  refine ⟨?_, hTlen, ?_⟩
  · rw [derive_eq_steps3456, sh] ; exact h3gtchas
  · intro i hi
    have hiu : i < ((deriveUpTo2 t).getCol "year").length := by
      rw [getCol_length huyear, lu, ← hTlen] ; exact hi
    rw [hTgtc, hTyear, hTco2]
    rw [groupTransformSum_getD hiu]
    have hmem : ((deriveUpTo2 t).getCol "year").getD i Cell.na ∈
        (deriveUpTo2 t).getCol "year" := by
      rw [getD_eq_get hiu] ; exact List.get_mem _ _ hiu
    have hperm : ((deriveUpTo2 t).getCol "year").Perm (t.getCol "year") := by
      unfold deriveUpTo2
      obtain ⟨w1, _, _, g1⟩ := eqFrame_deriveStep1 t hwf
      obtain ⟨_, _, _, g2⟩ := step2_frame _ w1
      exact (g2 "year" (by decide)).trans (by rw [g1 "year" (by decide)])
    have hne : ((deriveUpTo2 t).getCol "year").getD i Cell.na ≠ Cell.na :=
      hy _ (hperm.mem_iff.1 hmem)
    rw [if_neg hne]

theorem hasCol_mono_ext {t u : Table} {ext : List String} {d : String}
    (hcols : u.cols = t.cols ++ ext) (hd : t.hasCol d = true) : u.hasCol d = true := by
  rw [hasCol_iff_mem, hcols]
  exact List.mem_append_left _ (hasCol_iff_mem.1 hd)

/-- Presence of a column is monotone along the whole Metric Deriver. -/
theorem derive_hasCol_mono {t : Table} {d : String} (hwf : t.wf)
    (hd : t.hasCol d = true) : (derive t).hasCol d = true := by
  obtain ⟨_, _, ⟨ext, hcols, _⟩, _⟩ := derive_frame t hwf
  exact hasCol_mono_ext hcols hd

/-- A column outside the eight derived names is present in the output iff
it was present in the input. -/
theorem derive_hasCol_nonderived {t : Table} {d : String} (hwf : t.wf)
    (hd : d ∉ derivedNames) : (derive t).hasCol d = t.hasCol d := by
  obtain ⟨_, _, ⟨ext, hcols, hext⟩, _⟩ := derive_frame t hwf
  exact hasCol_chain hcols hext hd

theorem deriveStep1_id {t : Table} (h : co2PerCapitaGuard t = false) :
    deriveStep1 t = t := by
  unfold deriveStep1
  rw [if_neg (by simp [h])]

theorem deriveStep2_id {t : Table} (h : cumulativeCo2Guard t = false) :
    deriveStep2 t = t := by
  unfold deriveStep2
  rw [if_neg (by simp [h])]

theorem deriveStep5_id {t : Table} (h : gdpPerCapitaGuard t = false) :
    deriveStep5 t = t := by
  unfold deriveStep5
  rw [if_neg (by simp [h])]

theorem deriveStep6_id {t : Table} (h : co2PerGdpGuard t = false) :
    deriveStep6 t = t := by
  unfold deriveStep6
  rw [if_neg (by simp [h])]

theorem deriveStep1_hasCol_target {t : Table}
    (hco2 : t.hasCol "co2" = true) (hpop : t.hasCol "population" = true) :
    (deriveStep1 t).hasCol "co2_per_capita" = true := by
  by_cases h : t.hasCol "co2_per_capita" = true
  · unfold deriveStep1
    by_cases hg : co2PerCapitaGuard t = true
    · rw [if_pos hg] ; exact hasCol_setCol_self _
    · rw [if_neg hg] ; exact h
  · have hfalse : t.hasCol "co2_per_capita" = false := by
      cases hc : t.hasCol "co2_per_capita"
      · rfl
      · exact absurd hc h
    have hg : co2PerCapitaGuard t = true := by
      unfold co2PerCapitaGuard ; rw [hfalse, hco2, hpop] ; rfl
    unfold deriveStep1
    rw [if_pos hg]
    exact hasCol_setCol_self _

theorem deriveStep2_hasCol_target {t : Table}
    (hco2 : t.hasCol "co2" = true) (hcty : t.hasCol "country" = true)
    (hyear : t.hasCol "year" = true) :
    (deriveStep2 t).hasCol "cumulative_co2" = true := by
  by_cases h : t.hasCol "cumulative_co2" = true
  · unfold deriveStep2
    by_cases hg : cumulativeCo2Guard t = true
    · rw [if_pos hg] ; exact hasCol_setCol_self _
    · rw [if_neg hg] ; exact h
  · have hfalse : t.hasCol "cumulative_co2" = false := by
      cases hc : t.hasCol "cumulative_co2"
      · rfl
      · exact absurd hc h
    have hg : cumulativeCo2Guard t = true := by
      unfold cumulativeCo2Guard ; rw [hfalse, hco2, hcty, hyear] ; rfl
    unfold deriveStep2
    rw [if_pos hg]
    exact hasCol_setCol_self _

theorem deriveStep5_hasCol_target {t : Table}
    (hgdp : t.hasCol "gdp" = true) (hpop : t.hasCol "population" = true) :
    (deriveStep5 t).hasCol "gdp_per_capita" = true := by
  by_cases h : t.hasCol "gdp_per_capita" = true
  · unfold deriveStep5
    by_cases hg : gdpPerCapitaGuard t = true
    · rw [if_pos hg] ; exact hasCol_setCol_self _
    · rw [if_neg hg] ; exact h
  · have hfalse : t.hasCol "gdp_per_capita" = false := by
      cases hc : t.hasCol "gdp_per_capita"
      · rfl
      · exact absurd hc h
    have hg : gdpPerCapitaGuard t = true := by
      unfold gdpPerCapitaGuard ; rw [hfalse, hgdp, hpop] ; rfl
    unfold deriveStep5
    rw [if_pos hg]
    exact hasCol_setCol_self _

theorem deriveStep6_hasCol_target {t : Table}
    (hco2 : t.hasCol "co2" = true) (hgdp : t.hasCol "gdp" = true) :
    (deriveStep6 t).hasCol "co2_per_gdp" = true := by
  by_cases h : t.hasCol "co2_per_gdp" = true
  · unfold deriveStep6
    by_cases hg : co2PerGdpGuard t = true
    · rw [if_pos hg] ; exact hasCol_setCol_self _
    · rw [if_neg hg] ; exact h
  · have hfalse : t.hasCol "co2_per_gdp" = false := by
      cases hc : t.hasCol "co2_per_gdp"
      · rfl
      · exact absurd hc h
    have hg : co2PerGdpGuard t = true := by
      unfold co2PerGdpGuard ; rw [hfalse, hco2, hgdp] ; rfl
    unfold deriveStep6
    rw [if_pos hg]
    exact hasCol_setCol_self _

theorem derive_hasCol_co2pc {t : Table} (hwf : t.wf)
    (hco2 : t.hasCol "co2" = true) (hpop : t.hasCol "population" = true) :
    (derive t).hasCol "co2_per_capita" = true := by
  obtain ⟨w1, _, _, _⟩ := eqFrame_deriveStep1 t hwf
  obtain ⟨w2, _, ⟨e2, c2, _⟩, _⟩ := step2_frame _ w1
  obtain ⟨w3, _, ⟨e3, c3, _⟩, _⟩ := eqFrame_deriveStep3 _ w2
  obtain ⟨w4, _, ⟨e4, c4, _⟩, _⟩ := eqFrame_deriveStep4 _ w3
  obtain ⟨w5, _, ⟨e5, c5, _⟩, _⟩ := eqFrame_deriveStep5 _ w4
  obtain ⟨w6, _, ⟨e6, c6, _⟩, _⟩ := eqFrame_deriveStep6 _ w5
  unfold derive
  exact hasCol_mono_ext c6 (hasCol_mono_ext c5 (hasCol_mono_ext c4
    (hasCol_mono_ext c3 (hasCol_mono_ext c2 (deriveStep1_hasCol_target hco2 hpop)))))

theorem derive_hasCol_cumulative {t : Table} (hwf : t.wf)
    (hco2 : t.hasCol "co2" = true) (hcty : t.hasCol "country" = true)
    (hyear : t.hasCol "year" = true) :
    (derive t).hasCol "cumulative_co2" = true := by
  obtain ⟨w1, _, ⟨e1, c1, m1⟩, _⟩ := eqFrame_deriveStep1 t hwf
  have h1co2 : (deriveStep1 t).hasCol "co2" = true := by
    rw [hasCol_chain c1 m1 (by simp)] ; exact hco2
  have h1cty : (deriveStep1 t).hasCol "country" = true := by
    rw [hasCol_chain c1 m1 (by simp)] ; exact hcty
  have h1year : (deriveStep1 t).hasCol "year" = true := by
    rw [hasCol_chain c1 m1 (by simp)] ; exact hyear
  obtain ⟨w2, _, _, _⟩ := step2_frame _ w1
  obtain ⟨w3, _, ⟨e3, c3, _⟩, _⟩ := eqFrame_deriveStep3 _ w2
  obtain ⟨w4, _, ⟨e4, c4, _⟩, _⟩ := eqFrame_deriveStep4 _ w3
  obtain ⟨w5, _, ⟨e5, c5, _⟩, _⟩ := eqFrame_deriveStep5 _ w4
  obtain ⟨w6, _, ⟨e6, c6, _⟩, _⟩ := eqFrame_deriveStep6 _ w5
  unfold derive
  exact hasCol_mono_ext c6 (hasCol_mono_ext c5 (hasCol_mono_ext c4
    (hasCol_mono_ext c3 (deriveStep2_hasCol_target h1co2 h1cty h1year))))

theorem derive_hasCol_gdppc {t : Table} (hwf : t.wf)
    (hgdp : t.hasCol "gdp" = true) (hpop : t.hasCol "population" = true) :
    (derive t).hasCol "gdp_per_capita" = true := by
  obtain ⟨w1, _, ⟨e1, c1, m1⟩, _⟩ := eqFrame_deriveStep1 t hwf
  obtain ⟨w2, _, ⟨e2, c2, m2⟩, _⟩ := step2_frame _ w1
  obtain ⟨w3, _, ⟨e3, c3, m3⟩, _⟩ := eqFrame_deriveStep3 _ w2
  obtain ⟨w4, _, ⟨e4, c4, m4⟩, _⟩ := eqFrame_deriveStep4 _ w3
  have h4gdp : (deriveStep4 (deriveStep3 (deriveStep2 (deriveStep1 t)))).hasCol "gdp" =
      true := by
    rw [hasCol_chain c4 m4 (by simp), hasCol_chain c3 m3 (by simp),
      hasCol_chain c2 m2 (by simp), hasCol_chain c1 m1 (by simp)]
    exact hgdp
  have h4pop : (deriveStep4 (deriveStep3 (deriveStep2 (deriveStep1 t)))).hasCol
      "population" = true := by
    rw [hasCol_chain c4 m4 (by simp), hasCol_chain c3 m3 (by simp),
      hasCol_chain c2 m2 (by simp), hasCol_chain c1 m1 (by simp)]
    exact hpop
  obtain ⟨w5, _, _, _⟩ := eqFrame_deriveStep5 _ w4
  obtain ⟨w6, _, ⟨e6, c6, _⟩, _⟩ := eqFrame_deriveStep6 _ w5
  unfold derive
  exact hasCol_mono_ext c6 (deriveStep5_hasCol_target h4gdp h4pop)

theorem derive_hasCol_co2gdp {t : Table} (hwf : t.wf)
    (hco2 : t.hasCol "co2" = true) (hgdp : t.hasCol "gdp" = true) :
    (derive t).hasCol "co2_per_gdp" = true := by
  obtain ⟨w5, l5, pres⟩ := deriveUpTo5_facts t hwf
  have h5co2 : (deriveUpTo5 t).hasCol "co2" = true := by
    rw [pres "co2" (by simp)] ; exact hco2
  have h5gdp : (deriveUpTo5 t).hasCol "gdp" = true := by
    rw [pres "gdp" (by simp)] ; exact hgdp
  rw [derive_eq_step6]
  exact deriveStep6_hasCol_target h5co2 h5gdp

/-- What step 3 leaves in the `year`/`co2`/`global_total_co2`/`co2_pct`
columns, and that the last four steps do not disturb them. -/
theorem derive_pct_block (t : Table) (hwf : t.wf)
    (hco2 : t.hasCol "co2" = true) (hyear : t.hasCol "year" = true) :
    (derive t).getCol "year" = (deriveUpTo2 t).getCol "year" ∧
    (derive t).getCol "co2" = (deriveUpTo2 t).getCol "co2" ∧
    (derive t).getCol "global_total_co2" =
      groupTransformSum ((deriveUpTo2 t).getCol "year") ((deriveUpTo2 t).getCol "co2") ∧
    (derive t).getCol "co2_pct" =
      (List.zipWith (fun a b => cmul100 (cdiv a b)) ((deriveUpTo2 t).getCol "co2")
        (groupTransformSum ((deriveUpTo2 t).getCol "year")
          ((deriveUpTo2 t).getCol "co2"))).map fillna0 ∧
    (derive t).hasCol "global_total_co2" = true ∧
    (derive t).hasCol "co2_pct" = true ∧
    (deriveUpTo3 t).wf := by
  obtain ⟨wu, lu, pres⟩ := deriveUpTo2_facts t hwf
  have huco2 : (deriveUpTo2 t).hasCol "co2" = true := by
    rw [pres "co2" (by simp)] ; exact hco2
  have huyear : (deriveUpTo2 t).hasCol "year" = true := by
    rw [pres "year" (by simp)] ; exact hyear
  have hguard : co2PctGuard (deriveUpTo2 t) = true := by
    unfold co2PctGuard ; rw [huco2, huyear] ; rfl
  have hlentot : (groupTransformSum ((deriveUpTo2 t).getCol "year")
      ((deriveUpTo2 t).getCol "co2")).length = (deriveUpTo2 t).rows.length := by
    rw [length_groupTransformSum, getCol_length huyear]
  have hwfu2 : ((deriveUpTo2 t).setCol "global_total_co2"
      (groupTransformSum ((deriveUpTo2 t).getCol "year")
        ((deriveUpTo2 t).getCol "co2"))).wf := wf_setCol wu hlentot
  have hu2gtc : ((deriveUpTo2 t).setCol "global_total_co2"
      (groupTransformSum ((deriveUpTo2 t).getCol "year")
        ((deriveUpTo2 t).getCol "co2"))).getCol "global_total_co2" =
      groupTransformSum ((deriveUpTo2 t).getCol "year") ((deriveUpTo2 t).getCol "co2") :=
    getCol_setCol_self wu.2 hlentot
  have hu2co2 : ((deriveUpTo2 t).setCol "global_total_co2"
      (groupTransformSum ((deriveUpTo2 t).getCol "year")
        ((deriveUpTo2 t).getCol "co2"))).getCol "co2" = (deriveUpTo2 t).getCol "co2" :=
    getCol_setCol_other wu.2 hlentot (by decide)
  have hu2year : ((deriveUpTo2 t).setCol "global_total_co2"
      (groupTransformSum ((deriveUpTo2 t).getCol "year")
        ((deriveUpTo2 t).getCol "co2"))).getCol "year" = (deriveUpTo2 t).getCol "year" :=
    getCol_setCol_other wu.2 hlentot (by decide)
  have hu2co2has : ((deriveUpTo2 t).setCol "global_total_co2"
      (groupTransformSum ((deriveUpTo2 t).getCol "year")
        ((deriveUpTo2 t).getCol "co2"))).hasCol "co2" = true := by
    rw [hasCol_setCol_other (by decide)] ; exact huco2
  have hu2gtchas : ((deriveUpTo2 t).setCol "global_total_co2"
      (groupTransformSum ((deriveUpTo2 t).getCol "year")
        ((deriveUpTo2 t).getCol "co2"))).hasCol "global_total_co2" = true :=
    hasCol_setCol_self _
  have hstep3 : deriveUpTo3 t =
      ((deriveUpTo2 t).setCol "global_total_co2"
        (groupTransformSum ((deriveUpTo2 t).getCol "year")
          ((deriveUpTo2 t).getCol "co2"))).setCol "co2_pct"
        ((List.zipWith (fun a b => cmul100 (cdiv a b))
          (((deriveUpTo2 t).setCol "global_total_co2"
            (groupTransformSum ((deriveUpTo2 t).getCol "year")
              ((deriveUpTo2 t).getCol "co2"))).getCol "co2")
          (((deriveUpTo2 t).setCol "global_total_co2"
            (groupTransformSum ((deriveUpTo2 t).getCol "year")
              ((deriveUpTo2 t).getCol "co2"))).getCol "global_total_co2")).map fillna0) := by
    unfold deriveUpTo3 deriveStep3
    rw [if_pos hguard]
  have hlenpct : ((List.zipWith (fun a b => cmul100 (cdiv a b))
      (((deriveUpTo2 t).setCol "global_total_co2"
        (groupTransformSum ((deriveUpTo2 t).getCol "year")
          ((deriveUpTo2 t).getCol "co2"))).getCol "co2")
      (((deriveUpTo2 t).setCol "global_total_co2"
        (groupTransformSum ((deriveUpTo2 t).getCol "year")
          ((deriveUpTo2 t).getCol "co2"))).getCol "global_total_co2")).map fillna0).length =
      ((deriveUpTo2 t).setCol "global_total_co2"
        (groupTransformSum ((deriveUpTo2 t).getCol "year")
          ((deriveUpTo2 t).getCol "co2"))).rows.length := by
    rw [List.length_map, List.length_zipWith, getCol_length hu2co2has,
      getCol_length hu2gtchas]
    simp
  have hwf3 : (deriveUpTo3 t).wf := by
    rw [hstep3] ; exact wf_setCol hwfu2 hlenpct
  have h3gtc : (deriveUpTo3 t).getCol "global_total_co2" =
      groupTransformSum ((deriveUpTo2 t).getCol "year") ((deriveUpTo2 t).getCol "co2") := by
    rw [hstep3, getCol_setCol_other hwfu2.2 hlenpct (by decide), hu2gtc]
  have h3year : (deriveUpTo3 t).getCol "year" = (deriveUpTo2 t).getCol "year" := by
    rw [hstep3, getCol_setCol_other hwfu2.2 hlenpct (by decide), hu2year]
  have h3co2 : (deriveUpTo3 t).getCol "co2" = (deriveUpTo2 t).getCol "co2" := by
    rw [hstep3, getCol_setCol_other hwfu2.2 hlenpct (by decide), hu2co2]
  have h3pct : (deriveUpTo3 t).getCol "co2_pct" =
      (List.zipWith (fun a b => cmul100 (cdiv a b)) ((deriveUpTo2 t).getCol "co2")
        (groupTransformSum ((deriveUpTo2 t).getCol "year")
          ((deriveUpTo2 t).getCol "co2"))).map fillna0 := by
    rw [hstep3, getCol_setCol_self hwfu2.2 hlenpct, hu2co2, hu2gtc]
  have h3gtchas : (deriveUpTo3 t).hasCol "global_total_co2" = true := by
    rw [hstep3, hasCol_setCol_other (by decide)] ; exact hu2gtchas
  have h3pcthas : (deriveUpTo3 t).hasCol "co2_pct" = true := by
    rw [hstep3] ; exact hasCol_setCol_self _
  obtain ⟨sg, _, _, _⟩ := steps456_getCol (deriveUpTo3 t) hwf3 "global_total_co2" (by decide)
  obtain ⟨sgy, _, _, _⟩ := steps456_getCol (deriveUpTo3 t) hwf3 "year" (by decide)
  obtain ⟨sgc, _, _, _⟩ := steps456_getCol (deriveUpTo3 t) hwf3 "co2" (by decide)
  obtain ⟨sgp, _, _, _⟩ := steps456_getCol (deriveUpTo3 t) hwf3 "co2_pct" (by decide)
  obtain ⟨_, _, _, shg⟩ := steps456_getCol (deriveUpTo3 t) hwf3 "global_total_co2" (by decide)
  obtain ⟨_, _, _, shp⟩ := steps456_getCol (deriveUpTo3 t) hwf3 "co2_pct" (by decide)
  have heq : derive t = deriveStep6 (deriveStep5 (deriveStep4 (deriveUpTo3 t))) := rfl
  rw [heq]
  exact ⟨by rw [sgy, h3year], by rw [sgc, h3co2], by rw [sg, h3gtc],
    by rw [sgp, h3pct], by rw [shg] ; exact h3gtchas, by rw [shp] ; exact h3pcthas, hwf3⟩

theorem steps56_getCol (u : Table) (hwf : u.wf) (d : String)
    (hd : d ∉ ["gdp_per_capita", "co2_per_gdp"]) :
    (deriveStep6 (deriveStep5 u)).getCol d = u.getCol d ∧
    (deriveStep6 (deriveStep5 u)).wf ∧
    (deriveStep6 (deriveStep5 u)).rows.length = u.rows.length ∧
    (deriveStep6 (deriveStep5 u)).hasCol d = u.hasCol d := by
  simp only [List.mem_cons, List.not_mem_nil, or_false, not_or] at hd
  obtain ⟨n1, n2⟩ := hd
  obtain ⟨w5, l5, ⟨e5, c5, m5⟩, g5⟩ := eqFrame_deriveStep5 u hwf
  obtain ⟨w6, l6, ⟨e6, c6, m6⟩, g6⟩ := eqFrame_deriveStep6 _ w5
  refine ⟨?_, w6, by rw [l6, l5], ?_⟩
  · rw [g6 d (by simp [n2]), g5 d (by simp [n1])]
  · rw [hasCol_chain c6 m6 (by simp [n2]), hasCol_chain c5 m5 (by simp [n1])]

theorem deriveUpTo3_facts (t : Table) (hwf : t.wf) :
    (deriveUpTo3 t).wf ∧ (deriveUpTo3 t).rows.length = t.rows.length ∧
    (∀ d, d ∉ ["co2_per_capita", "cumulative_co2", "global_total_co2", "co2_pct"] →
      (deriveUpTo3 t).hasCol d = t.hasCol d) := by
  unfold deriveUpTo3 deriveUpTo2
  obtain ⟨w1, l1, ⟨e1, c1, m1⟩, g1⟩ := eqFrame_deriveStep1 t hwf
  obtain ⟨w2, l2, ⟨e2, c2, m2⟩, g2⟩ := step2_frame _ w1
  obtain ⟨w3, l3, ⟨e3, c3, m3⟩, g3⟩ := eqFrame_deriveStep3 _ w2
  refine ⟨w3, by rw [l3, l2, l1], ?_⟩
  intro d hd
  simp only [List.mem_cons, List.not_mem_nil, or_false, not_or] at hd
  obtain ⟨n1, n2, n3, n4⟩ := hd
  rw [hasCol_chain c3 m3 (by simp [n3, n4]), hasCol_chain c2 m2 (by simp [n2]),
    hasCol_chain c1 m1 (by simp [n1])]

/-- What step 4 leaves in the `gdp`/`global_total_gdp`/`gdp_pct` columns
(and that steps 5–6 do not disturb them). -/
theorem derive_gdp_block (t : Table) (hwf : t.wf)
    (hgdp : t.hasCol "gdp" = true) (hyear : t.hasCol "year" = true) :
    (derive t).getCol "year" = (deriveUpTo3 t).getCol "year" ∧
    (derive t).getCol "gdp" = (deriveUpTo3 t).getCol "gdp" ∧
    (derive t).getCol "global_total_gdp" =
      groupTransformSum ((deriveUpTo3 t).getCol "year") ((deriveUpTo3 t).getCol "gdp") ∧
    (derive t).getCol "gdp_pct" =
      (List.zipWith (fun a b => cmul100 (cdiv a b)) ((deriveUpTo3 t).getCol "gdp")
        (groupTransformSum ((deriveUpTo3 t).getCol "year")
          ((deriveUpTo3 t).getCol "gdp"))).map fillna0 ∧
    (derive t).hasCol "global_total_gdp" = true ∧
    (derive t).hasCol "gdp_pct" = true := by
  obtain ⟨wu, lu, pres⟩ := deriveUpTo3_facts t hwf
  have hugdp : (deriveUpTo3 t).hasCol "gdp" = true := by
    rw [pres "gdp" (by simp)] ; exact hgdp
  have huyear : (deriveUpTo3 t).hasCol "year" = true := by
    rw [pres "year" (by simp)] ; exact hyear
  have hguard : gdpPctGuard (deriveUpTo3 t) = true := by
    unfold gdpPctGuard ; rw [hugdp, huyear] ; rfl
  have hlentot : (groupTransformSum ((deriveUpTo3 t).getCol "year")
      ((deriveUpTo3 t).getCol "gdp")).length = (deriveUpTo3 t).rows.length := by
    rw [length_groupTransformSum, getCol_length huyear]
  have hwfu2 : ((deriveUpTo3 t).setCol "global_total_gdp"
      (groupTransformSum ((deriveUpTo3 t).getCol "year")
        ((deriveUpTo3 t).getCol "gdp"))).wf := wf_setCol wu hlentot
  have hu2gtg : ((deriveUpTo3 t).setCol "global_total_gdp"
      (groupTransformSum ((deriveUpTo3 t).getCol "year")
        ((deriveUpTo3 t).getCol "gdp"))).getCol "global_total_gdp" =
      groupTransformSum ((deriveUpTo3 t).getCol "year") ((deriveUpTo3 t).getCol "gdp") :=
    getCol_setCol_self wu.2 hlentot
  have hu2gdp : ((deriveUpTo3 t).setCol "global_total_gdp"
      (groupTransformSum ((deriveUpTo3 t).getCol "year")
        ((deriveUpTo3 t).getCol "gdp"))).getCol "gdp" = (deriveUpTo3 t).getCol "gdp" :=
    getCol_setCol_other wu.2 hlentot (by decide)
  have hu2year : ((deriveUpTo3 t).setCol "global_total_gdp"
      (groupTransformSum ((deriveUpTo3 t).getCol "year")
        ((deriveUpTo3 t).getCol "gdp"))).getCol "year" = (deriveUpTo3 t).getCol "year" :=
    getCol_setCol_other wu.2 hlentot (by decide)
  have hu2gdphas : ((deriveUpTo3 t).setCol "global_total_gdp"
      (groupTransformSum ((deriveUpTo3 t).getCol "year")
        ((deriveUpTo3 t).getCol "gdp"))).hasCol "gdp" = true := by
    rw [hasCol_setCol_other (by decide)] ; exact hugdp
  have hu2gtghas : ((deriveUpTo3 t).setCol "global_total_gdp"
      (groupTransformSum ((deriveUpTo3 t).getCol "year")
        ((deriveUpTo3 t).getCol "gdp"))).hasCol "global_total_gdp" = true :=
    hasCol_setCol_self _
  have hstep4 : deriveStep4 (deriveUpTo3 t) =
      ((deriveUpTo3 t).setCol "global_total_gdp"
        (groupTransformSum ((deriveUpTo3 t).getCol "year")
          ((deriveUpTo3 t).getCol "gdp"))).setCol "gdp_pct"
        ((List.zipWith (fun a b => cmul100 (cdiv a b))
          (((deriveUpTo3 t).setCol "global_total_gdp"
            (groupTransformSum ((deriveUpTo3 t).getCol "year")
              ((deriveUpTo3 t).getCol "gdp"))).getCol "gdp")
          (((deriveUpTo3 t).setCol "global_total_gdp"
            (groupTransformSum ((deriveUpTo3 t).getCol "year")
              ((deriveUpTo3 t).getCol "gdp"))).getCol "global_total_gdp")).map fillna0) := by
    unfold deriveStep4
    rw [if_pos hguard]
  have hlenpct : ((List.zipWith (fun a b => cmul100 (cdiv a b))
      (((deriveUpTo3 t).setCol "global_total_gdp"
        (groupTransformSum ((deriveUpTo3 t).getCol "year")
          ((deriveUpTo3 t).getCol "gdp"))).getCol "gdp")
      (((deriveUpTo3 t).setCol "global_total_gdp"
        (groupTransformSum ((deriveUpTo3 t).getCol "year")
          ((deriveUpTo3 t).getCol "gdp"))).getCol "global_total_gdp")).map fillna0).length =
      ((deriveUpTo3 t).setCol "global_total_gdp"
        (groupTransformSum ((deriveUpTo3 t).getCol "year")
          ((deriveUpTo3 t).getCol "gdp"))).rows.length := by
    rw [List.length_map, List.length_zipWith, getCol_length hu2gdphas,
      getCol_length hu2gtghas]
    simp
  have hwf4 : (deriveStep4 (deriveUpTo3 t)).wf := by
    rw [hstep4] ; exact wf_setCol hwfu2 hlenpct
  have h4gtg : (deriveStep4 (deriveUpTo3 t)).getCol "global_total_gdp" =
      groupTransformSum ((deriveUpTo3 t).getCol "year") ((deriveUpTo3 t).getCol "gdp") := by
    rw [hstep4, getCol_setCol_other hwfu2.2 hlenpct (by decide), hu2gtg]
  have h4year : (deriveStep4 (deriveUpTo3 t)).getCol "year" =
      (deriveUpTo3 t).getCol "year" := by
    rw [hstep4, getCol_setCol_other hwfu2.2 hlenpct (by decide), hu2year]
  have h4gdp : (deriveStep4 (deriveUpTo3 t)).getCol "gdp" =
      (deriveUpTo3 t).getCol "gdp" := by
    rw [hstep4, getCol_setCol_other hwfu2.2 hlenpct (by decide), hu2gdp]
  have h4pct : (deriveStep4 (deriveUpTo3 t)).getCol "gdp_pct" =
      (List.zipWith (fun a b => cmul100 (cdiv a b)) ((deriveUpTo3 t).getCol "gdp")
        (groupTransformSum ((deriveUpTo3 t).getCol "year")
          ((deriveUpTo3 t).getCol "gdp"))).map fillna0 := by
    rw [hstep4, getCol_setCol_self hwfu2.2 hlenpct, hu2gdp, hu2gtg]
  have h4gtghas : (deriveStep4 (deriveUpTo3 t)).hasCol "global_total_gdp" = true := by
    rw [hstep4, hasCol_setCol_other (by decide)] ; exact hu2gtghas
  have h4pcthas : (deriveStep4 (deriveUpTo3 t)).hasCol "gdp_pct" = true := by
    rw [hstep4] ; exact hasCol_setCol_self _
  obtain ⟨sy, _, _, _⟩ := steps56_getCol (deriveStep4 (deriveUpTo3 t)) hwf4 "year" (by decide)
  obtain ⟨sg, _, _, _⟩ := steps56_getCol (deriveStep4 (deriveUpTo3 t)) hwf4 "gdp" (by decide)
  obtain ⟨st, _, _, sth⟩ := steps56_getCol (deriveStep4 (deriveUpTo3 t)) hwf4
    "global_total_gdp" (by decide)
  obtain ⟨sp, _, _, sph⟩ := steps56_getCol (deriveStep4 (deriveUpTo3 t)) hwf4
    "gdp_pct" (by decide)
  have heq : derive t = deriveStep6 (deriveStep5 (deriveStep4 (deriveUpTo3 t))) := rfl
  rw [heq]
  exact ⟨by rw [sy, h4year], by rw [sg, h4gdp], by rw [st, h4gtg], by rw [sp, h4pct],
    by rw [sth] ; exact h4gtghas, by rw [sph] ; exact h4pcthas⟩

theorem bool_eq_false_of_ne_true {b : Bool} (h : ¬ b = true) : b = false := by
  cases b
  · rfl
  · exact absurd rfl h

theorem deriveStep3_id_aux {t : Table} (h : co2PctGuard t = false) :
    deriveStep3 t = t := by
  unfold deriveStep3
  rw [if_neg (by simp [h])]

theorem deriveStep4_id_aux {t : Table} (h : gdpPctGuard t = false) :
    deriveStep4 t = t := by
  unfold deriveStep4
  rw [if_neg (by simp [h])]

theorem derive_derive_eq_derive (t : Table) (hwf : t.wf) :
    derive (derive t) = derive t := by
  obtain ⟨wT, lT, ⟨extT, colsT, memT⟩, permT⟩ := derive_frame t hwf
  have hnd : ∀ d, d ∉ derivedNames → (derive t).hasCol d = t.hasCol d :=
    fun d hd => derive_hasCol_nonderived hwf hd
  have s1 : deriveStep1 (derive t) = derive t := by
    apply deriveStep1_id
    unfold co2PerCapitaGuard
    by_cases hc : t.hasCol "co2" = true
    · by_cases hp : t.hasCol "population" = true
      · rw [derive_hasCol_co2pc hwf hc hp]
        rfl
      · rw [hnd "population" (by decide), bool_eq_false_of_ne_true hp]
        simp
    · rw [hnd "co2" (by decide), bool_eq_false_of_ne_true hc]
      simp
  have s2 : deriveStep2 (derive t) = derive t := by
    apply deriveStep2_id
    unfold cumulativeCo2Guard
    by_cases hc : t.hasCol "co2" = true
    · by_cases hk : t.hasCol "country" = true
      · by_cases hy : t.hasCol "year" = true
        · rw [derive_hasCol_cumulative hwf hc hk hy]
          rfl
        · rw [hnd "year" (by decide), bool_eq_false_of_ne_true hy]
          simp
      · rw [hnd "country" (by decide), bool_eq_false_of_ne_true hk]
        simp
    · rw [hnd "co2" (by decide), bool_eq_false_of_ne_true hc]
      simp
  have s5 : deriveStep5 (derive t) = derive t := by
    apply deriveStep5_id
    unfold gdpPerCapitaGuard
    by_cases hg : t.hasCol "gdp" = true
    · by_cases hp : t.hasCol "population" = true
      · rw [derive_hasCol_gdppc hwf hg hp]
        rfl
      · rw [hnd "population" (by decide), bool_eq_false_of_ne_true hp]
        simp
    · rw [hnd "gdp" (by decide), bool_eq_false_of_ne_true hg]
      simp
  have s6 : deriveStep6 (derive t) = derive t := by
    apply deriveStep6_id
    unfold co2PerGdpGuard
    by_cases hc : t.hasCol "co2" = true
    · by_cases hg : t.hasCol "gdp" = true
      · rw [derive_hasCol_co2gdp hwf hc hg]
        rfl
      · rw [hnd "gdp" (by decide), bool_eq_false_of_ne_true hg]
        simp
    · rw [hnd "co2" (by decide), bool_eq_false_of_ne_true hc]
      simp
  have s3 : deriveStep3 (derive t) = derive t := by
    by_cases hc : t.hasCol "co2" = true
    · by_cases hy : t.hasCol "year" = true
      · obtain ⟨bY, bC, bG, bP, bGh, bPh, _⟩ := derive_pct_block t hwf hc hy
        have hguard : co2PctGuard (derive t) = true := by
          unfold co2PctGuard
          rw [hnd "co2" (by decide), hnd "year" (by decide), hc, hy]
          rfl
        have h1 : (derive t).setCol "global_total_co2"
            (groupTransformSum ((derive t).getCol "year") ((derive t).getCol "co2")) =
            derive t := by
          rw [bY, bC, ← bG]
          exact setCol_getCol_self wT.2 bGh
        have hstep : deriveStep3 (derive t) =
            ((derive t).setCol "global_total_co2"
              (groupTransformSum ((derive t).getCol "year")
                ((derive t).getCol "co2"))).setCol "co2_pct"
              ((List.zipWith (fun a b => cmul100 (cdiv a b))
                (((derive t).setCol "global_total_co2"
                  (groupTransformSum ((derive t).getCol "year")
                    ((derive t).getCol "co2"))).getCol "co2")
                (((derive t).setCol "global_total_co2"
                  (groupTransformSum ((derive t).getCol "year")
                    ((derive t).getCol "co2"))).getCol "global_total_co2")).map fillna0) := by
          unfold deriveStep3
          rw [if_pos hguard]
        rw [hstep, h1]
        have h2 : (List.zipWith (fun a b => cmul100 (cdiv a b)) ((derive t).getCol "co2")
            ((derive t).getCol "global_total_co2")).map fillna0 =
            (derive t).getCol "co2_pct" := by
          rw [bC, bG, ← bP]
        rw [h2]
        exact setCol_getCol_self wT.2 bPh
      · apply deriveStep3_id_aux
        unfold co2PctGuard
        rw [hnd "year" (by decide), bool_eq_false_of_ne_true hy]
        simp
    · apply deriveStep3_id_aux
      unfold co2PctGuard
      rw [hnd "co2" (by decide), bool_eq_false_of_ne_true hc]
      simp
  have s4 : deriveStep4 (derive t) = derive t := by
    by_cases hg : t.hasCol "gdp" = true
    · by_cases hy : t.hasCol "year" = true
      · obtain ⟨bY, bC, bG, bP, bGh, bPh⟩ := derive_gdp_block t hwf hg hy
        have hguard : gdpPctGuard (derive t) = true := by
          unfold gdpPctGuard
          rw [hnd "gdp" (by decide), hnd "year" (by decide), hg, hy]
          rfl
        have h1 : (derive t).setCol "global_total_gdp"
            (groupTransformSum ((derive t).getCol "year") ((derive t).getCol "gdp")) =
            derive t := by
          rw [bY, bC, ← bG]
          exact setCol_getCol_self wT.2 bGh
        have hstep : deriveStep4 (derive t) =
            ((derive t).setCol "global_total_gdp"
              (groupTransformSum ((derive t).getCol "year")
                ((derive t).getCol "gdp"))).setCol "gdp_pct"
              ((List.zipWith (fun a b => cmul100 (cdiv a b))
                (((derive t).setCol "global_total_gdp"
                  (groupTransformSum ((derive t).getCol "year")
                    ((derive t).getCol "gdp"))).getCol "gdp")
                (((derive t).setCol "global_total_gdp"
                  (groupTransformSum ((derive t).getCol "year")
                    ((derive t).getCol "gdp"))).getCol "global_total_gdp")).map fillna0) := by
          unfold deriveStep4
          rw [if_pos hguard]
        rw [hstep, h1]
        have h2 : (List.zipWith (fun a b => cmul100 (cdiv a b)) ((derive t).getCol "gdp")
            ((derive t).getCol "global_total_gdp")).map fillna0 =
            (derive t).getCol "gdp_pct" := by
          rw [bC, bG, ← bP]
        rw [h2]
        exact setCol_getCol_self wT.2 bPh
      · apply deriveStep4_id_aux
        unfold gdpPctGuard
        rw [hnd "year" (by decide), bool_eq_false_of_ne_true hy]
        simp
    · apply deriveStep4_id_aux
      unfold gdpPctGuard
      rw [hnd "gdp" (by decide), bool_eq_false_of_ne_true hg]
      simp
  show deriveStep6 (deriveStep5 (deriveStep4 (deriveStep3 (deriveStep2
    (deriveStep1 (derive t)))))) = derive t
  rw [s1, s2, s3, s4, s5, s6]

theorem zip_map_fst {α β γ : Type _} (f : α → γ) :
    ∀ (xs : List α) (ys : List β), xs.length = ys.length →
      ((xs.zip ys).map (fun p => f p.1)) = xs.map f
  | [], [], _ => rfl
  | [], _ :: _, h => by simp at h
  | _ :: _, [], h => by simp at h
  | x :: xs, y :: ys, h => by
    simp only [List.zip_cons_cons, List.map_cons]
    rw [zip_map_fst f xs ys (by simpa using h)]

theorem projRow_set {cols names : List String} {r : List Cell} {i : Nat} {v : Cell}
    {c : String} (hi : i < cols.length) (hc : cols.get ⟨i, hi⟩ = c) (hnames : c ∉ names) :
    projRow cols names (r.set i v) = projRow cols names r := by
  unfold projRow
  apply List.map_congr_left
  intro d hd
  cases hidx : cols.findIdx? (fun x => x = d) with
  | some j =>
    have hspec : ∃ hj : j < cols.length, cols[j] = d := by
      rw [List.findIdx?_eq_some_iff_getElem] at hidx
      obtain ⟨hj, h1, _⟩ := hidx
      exact ⟨hj, by simpa using h1⟩
    obtain ⟨hj, hdj⟩ := hspec
    have hji : j ≠ i := by
      intro hji
      subst hji
      apply hnames
      have : c = d := by
        rw [← hc, ← hdj]
        simp
      rw [← this] at hd
      exact hd
    simp only [List.getD_eq_getElem?_getD, List.getElem?_set_ne (Ne.symm hji)]
  | none => rfl

theorem projRow_append {cols names : List String} {r : List Cell} {v : Cell}
    {c : String} (hrlen : r.length = cols.length) (hnames : c ∉ names) :
    projRow (cols ++ [c]) names (r ++ [v]) = projRow cols names r := by
  unfold projRow
  apply List.map_congr_left
  intro d hd
  have hdc : d ≠ c := fun h => hnames (h ▸ hd)
  cases hidx : cols.findIdx? (fun x => x = d) with
  | some j =>
    have hspec : ∃ hj : j < cols.length, cols[j] = d := by
      rw [List.findIdx?_eq_some_iff_getElem] at hidx
      obtain ⟨hj, h1, _⟩ := hidx
      exact ⟨hj, by simpa using h1⟩
    obtain ⟨hj, _⟩ := hspec
    have happ : (cols ++ [c]).findIdx? (fun x => x = d) = some j := by
      rw [List.findIdx?_append, hidx]
      rfl
    rw [happ]
    show (r ++ [v]).getD j Cell.na = r.getD j Cell.na
    rw [List.getD_eq_getElem?_getD, List.getD_eq_getElem?_getD,
      List.getElem?_append_left (hrlen ▸ hj)]
  | none =>
    have happ : (cols ++ [c]).findIdx? (fun x => x = d) = none := by
      rw [List.findIdx?_append, hidx]
      simp [List.findIdx?_cons, Ne.symm hdc]
    simp only [happ, hidx]

theorem rowsProj_setCol {t : Table} {c : String} {vs : List Cell} {names : List String}
    (hrect : ∀ r ∈ t.rows, r.length = t.cols.length)
    (hlen : vs.length = t.rows.length) (hc : c ∉ names) :
    rowsProj (t.setCol c vs) names = rowsProj t names := by
  unfold rowsProj Table.setCol
  cases hidx : t.colIdx c with
  | some i =>
    obtain ⟨hi, hci⟩ := colIdx_spec hidx
    show ((t.rows.zip vs).map _).map _ = _
    rw [List.map_map]
    have step : ((t.rows.zip vs).map (fun p => projRow t.cols names (p.1.set i p.2))) =
        (t.rows.zip vs).map (fun p => projRow t.cols names p.1) := by
      apply List.map_congr_left
      intro p _
      exact projRow_set hi (by simpa using hci) hc
    exact step.trans (zip_map_fst _ t.rows vs hlen.symm)
  | none =>
    show ((t.rows.zip vs).map _).map _ = _
    rw [List.map_map]
    have step : ((t.rows.zip vs).map (fun p => projRow (t.cols ++ [c]) names (p.1 ++ [p.2]))) =
        (t.rows.zip vs).map (fun p => projRow t.cols names p.1) := by
      apply List.map_congr_left
      intro p hp
      exact projRow_append (hrect p.1 (List.of_mem_zip hp).1) hc
    exact step.trans (zip_map_fst _ t.rows vs hlen.symm)

theorem rowsProj_sort (t : Table) (names : List String) :
    (rowsProj (sortByCountryYear t) names).Perm (rowsProj t names) := by
  unfold rowsProj
  have hcols : (sortByCountryYear t).cols = t.cols := rfl
  rw [hcols]
  exact (sort_rows_perm t).map _

theorem rowsProj_deriveStep1 {u : Table} (hwf : u.wf) {keep : List String}
    (hkeep : ∀ c ∈ keep, u.hasCol c = true) :
    rowsProj (deriveStep1 u) keep = rowsProj u keep := by
  unfold deriveStep1
  by_cases hg : co2PerCapitaGuard u = true
  · rw [if_pos hg]
    unfold co2PerCapitaGuard at hg
    simp only [Bool.and_eq_true, Bool.not_eq_true'] at hg
    obtain ⟨⟨h1, h2⟩, h3⟩ := hg
    have htgt : "co2_per_capita" ∉ keep := by
      intro hmem
      have := hkeep _ hmem
      rw [h1] at this
      simp at this
    have hlen : (List.zipWith cdiv (u.getCol "co2") (u.getCol "population")).length =
        u.rows.length := by
      rw [List.length_zipWith, getCol_length h2, getCol_length h3] ; simp
    exact rowsProj_setCol hwf.2 hlen htgt
  · rw [if_neg hg]

theorem rowsProj_deriveStep5 {u : Table} (hwf : u.wf) {keep : List String}
    (hkeep : ∀ c ∈ keep, u.hasCol c = true) :
    rowsProj (deriveStep5 u) keep = rowsProj u keep := by
  unfold deriveStep5
  by_cases hg : gdpPerCapitaGuard u = true
  · rw [if_pos hg]
    unfold gdpPerCapitaGuard at hg
    simp only [Bool.and_eq_true, Bool.not_eq_true'] at hg
    obtain ⟨⟨h1, h2⟩, h3⟩ := hg
    have htgt : "gdp_per_capita" ∉ keep := by
      intro hmem
      have := hkeep _ hmem
      rw [h1] at this
      simp at this
    have hlen : (List.zipWith cdiv (u.getCol "gdp") (u.getCol "population")).length =
        u.rows.length := by
      rw [List.length_zipWith, getCol_length h2, getCol_length h3] ; simp
    exact rowsProj_setCol hwf.2 hlen htgt
  · rw [if_neg hg]

theorem rowsProj_deriveStep6 {u : Table} (hwf : u.wf) {keep : List String}
    (hkeep : ∀ c ∈ keep, u.hasCol c = true) :
    rowsProj (deriveStep6 u) keep = rowsProj u keep := by
  unfold deriveStep6
  by_cases hg : co2PerGdpGuard u = true
  · rw [if_pos hg]
    unfold co2PerGdpGuard at hg
    simp only [Bool.and_eq_true, Bool.not_eq_true'] at hg
    obtain ⟨⟨h1, h2⟩, h3⟩ := hg
    have htgt : "co2_per_gdp" ∉ keep := by
      intro hmem
      have := hkeep _ hmem
      rw [h1] at this
      simp at this
    have hlen : (List.zipWith cdiv (u.getCol "co2")
        ((u.getCol "gdp").map replace0na)).length = u.rows.length := by
      rw [List.length_zipWith, getCol_length h2, List.length_map, getCol_length h3] ; simp
    exact rowsProj_setCol hwf.2 hlen htgt
  · rw [if_neg hg]

theorem rowsProj_deriveStep2 {u : Table} (hwf : u.wf) {keep : List String}
    (hkeep : ∀ c ∈ keep, u.hasCol c = true) :
    (rowsProj (deriveStep2 u) keep).Perm (rowsProj u keep) := by
  unfold deriveStep2
  by_cases hg : cumulativeCo2Guard u = true
  · rw [if_pos hg]
    unfold cumulativeCo2Guard at hg
    simp only [Bool.and_eq_true, Bool.not_eq_true'] at hg
    obtain ⟨⟨⟨h0, h1⟩, h2⟩, h3⟩ := hg
    have htgt : "cumulative_co2" ∉ keep := by
      intro hmem
      have := hkeep _ hmem
      rw [h0] at this
      simp at this
    have hlen : (groupCumsum ((sortByCountryYear u).getCol "country")
        ((sortByCountryYear u).getCol "co2")).length =
        (sortByCountryYear u).rows.length := by
      rw [length_groupCumsum, getCol_length (show (sortByCountryYear u).hasCol "country" =
        true from h2)]
    rw [rowsProj_setCol (wf_sort hwf).2 hlen htgt]
    exact rowsProj_sort u keep
  · rw [if_neg hg]

theorem rowsProj_deriveStep3 {u : Table} (hwf : u.wf) {keep : List String}
    (hpct : ∀ c ∈ keep, c ∉ pctNames) :
    rowsProj (deriveStep3 u) keep = rowsProj u keep := by
  unfold deriveStep3
  by_cases hg : co2PctGuard u = true
  · rw [if_pos hg]
    unfold co2PctGuard at hg
    simp only [Bool.and_eq_true] at hg
    obtain ⟨h1, h2⟩ := hg
    have hgtc : "global_total_co2" ∉ keep := by
      intro hmem
      exact hpct _ hmem (by simp [pctNames])
    have hpcm : "co2_pct" ∉ keep := by
      intro hmem
      exact hpct _ hmem (by simp [pctNames])
    have hlen1 : (groupTransformSum (u.getCol "year") (u.getCol "co2")).length =
        u.rows.length := by
      rw [length_groupTransformSum, getCol_length h2]
    obtain ⟨hwf2, hrl2, ⟨e, hc, hm⟩, _⟩ := @eqFrame_setCol u "global_total_co2"
      (groupTransformSum (u.getCol "year") (u.getCol "co2"))
      ["global_total_co2"] hwf hlen1 (by simp)
    have hco2 : (u.setCol "global_total_co2"
        (groupTransformSum (u.getCol "year") (u.getCol "co2"))).hasCol "co2" = true := by
      rw [hasCol_setCol_other (by decide)] ; exact h1
    have hgtchas : (u.setCol "global_total_co2"
        (groupTransformSum (u.getCol "year") (u.getCol "co2"))).hasCol "global_total_co2" =
        true := hasCol_setCol_self _
    have hlen2 : ((List.zipWith (fun a b => cmul100 (cdiv a b))
        ((u.setCol "global_total_co2"
          (groupTransformSum (u.getCol "year") (u.getCol "co2"))).getCol "co2")
        ((u.setCol "global_total_co2"
          (groupTransformSum (u.getCol "year") (u.getCol "co2"))).getCol
            "global_total_co2")).map fillna0).length =
        (u.setCol "global_total_co2"
          (groupTransformSum (u.getCol "year") (u.getCol "co2"))).rows.length := by
      rw [List.length_map, List.length_zipWith, getCol_length hco2, getCol_length hgtchas]
      simp
    rw [rowsProj_setCol hwf2.2 hlen2 hpcm, rowsProj_setCol hwf.2 hlen1 hgtc]
  · rw [if_neg hg]

theorem rowsProj_deriveStep4 {u : Table} (hwf : u.wf) {keep : List String}
    (hpct : ∀ c ∈ keep, c ∉ pctNames) :
    rowsProj (deriveStep4 u) keep = rowsProj u keep := by
  unfold deriveStep4
  by_cases hg : gdpPctGuard u = true
  · rw [if_pos hg]
    unfold gdpPctGuard at hg
    simp only [Bool.and_eq_true] at hg
    obtain ⟨h1, h2⟩ := hg
    have hgtc : "global_total_gdp" ∉ keep := by
      intro hmem
      exact hpct _ hmem (by simp [pctNames])
    have hpcm : "gdp_pct" ∉ keep := by
      intro hmem
      exact hpct _ hmem (by simp [pctNames])
    have hlen1 : (groupTransformSum (u.getCol "year") (u.getCol "gdp")).length =
        u.rows.length := by
      rw [length_groupTransformSum, getCol_length h2]
    obtain ⟨hwf2, hrl2, _, _⟩ := @eqFrame_setCol u "global_total_gdp"
      (groupTransformSum (u.getCol "year") (u.getCol "gdp"))
      ["global_total_gdp"] hwf hlen1 (by simp)
    have hgdp : (u.setCol "global_total_gdp"
        (groupTransformSum (u.getCol "year") (u.getCol "gdp"))).hasCol "gdp" = true := by
      rw [hasCol_setCol_other (by decide)] ; exact h1
    have hgtghas : (u.setCol "global_total_gdp"
        (groupTransformSum (u.getCol "year") (u.getCol "gdp"))).hasCol "global_total_gdp" =
        true := hasCol_setCol_self _
    have hlen2 : ((List.zipWith (fun a b => cmul100 (cdiv a b))
        ((u.setCol "global_total_gdp"
          (groupTransformSum (u.getCol "year") (u.getCol "gdp"))).getCol "gdp")
        ((u.setCol "global_total_gdp"
          (groupTransformSum (u.getCol "year") (u.getCol "gdp"))).getCol
            "global_total_gdp")).map fillna0).length =
        (u.setCol "global_total_gdp"
          (groupTransformSum (u.getCol "year") (u.getCol "gdp"))).rows.length := by
      rw [List.length_map, List.length_zipWith, getCol_length hgdp, getCol_length hgtghas]
      simp
    rw [rowsProj_setCol hwf2.2 hlen2 hpcm, rowsProj_setCol hwf.2 hlen1 hgtc]
  · rw [if_neg hg]

theorem derive_rowsProj_perm (t : Table) (hwf : t.wf) {keep : List String}
    (hkeep : ∀ c ∈ keep, t.hasCol c = true) (hpct : ∀ c ∈ keep, c ∉ pctNames) :
    (rowsProj (derive t) keep).Perm (rowsProj t keep) := by
  obtain ⟨w1, _, ⟨e1, c1, _⟩, _⟩ := eqFrame_deriveStep1 t hwf
  obtain ⟨w2, _, ⟨e2, c2, _⟩, _⟩ := step2_frame _ w1
  obtain ⟨w3, _, ⟨e3, c3, _⟩, _⟩ := eqFrame_deriveStep3 _ w2
  obtain ⟨w4, _, ⟨e4, c4, _⟩, _⟩ := eqFrame_deriveStep4 _ w3
  obtain ⟨w5, _, ⟨e5, c5, _⟩, _⟩ := eqFrame_deriveStep5 _ w4
  have k1 : ∀ c ∈ keep, (deriveStep1 t).hasCol c = true :=
    fun c hc => hasCol_mono_ext c1 (hkeep c hc)
  have k2 : ∀ c ∈ keep, (deriveStep2 (deriveStep1 t)).hasCol c = true :=
    fun c hc => hasCol_mono_ext c2 (k1 c hc)
  have k3 : ∀ c ∈ keep,
      (deriveStep3 (deriveStep2 (deriveStep1 t))).hasCol c = true :=
    fun c hc => hasCol_mono_ext c3 (k2 c hc)
  have k4 : ∀ c ∈ keep,
      (deriveStep4 (deriveStep3 (deriveStep2 (deriveStep1 t)))).hasCol c = true :=
    fun c hc => hasCol_mono_ext c4 (k3 c hc)
  have k5 : ∀ c ∈ keep,
      (deriveStep5 (deriveStep4 (deriveStep3 (deriveStep2 (deriveStep1 t))))).hasCol c =
        true :=
    fun c hc => hasCol_mono_ext c5 (k4 c hc)
  show (rowsProj (deriveStep6 _) keep).Perm _
  rw [rowsProj_deriveStep6 w5 k5, rowsProj_deriveStep5 w4 k4,
    rowsProj_deriveStep4 w3 hpct, rowsProj_deriveStep3 w2 hpct]
  exact (rowsProj_deriveStep2 w1 k1).trans (by rw [rowsProj_deriveStep1 hwf hkeep])

/-- C1 (amended): the four derived columns with an only-if-absent guard
(`co2_per_capita`, `cumulative_co2`, `gdp_per_capita`, `co2_per_gdp`)
are never overwritten — when present in the input, the Metric Deriver
preserves their per-row values up to row reordering. -/
theorem guarded_getCol_perm (t : Table) (hwf : t.wf) :
    ∀ g ∈ ["co2_per_capita", "cumulative_co2", "gdp_per_capita", "co2_per_gdp"],
      t.hasCol g = true → ((derive t).getCol g).Perm (t.getCol g) := by
  intro g hg hhas
  obtain ⟨w1, _, ⟨e1, c1, m1⟩, g1⟩ := eqFrame_deriveStep1 t hwf
  obtain ⟨w2, _, ⟨e2, c2, m2⟩, g2⟩ := step2_frame _ w1
  obtain ⟨w3, _, ⟨e3, c3, m3⟩, g3⟩ := eqFrame_deriveStep3 _ w2
  obtain ⟨w4, _, ⟨e4, c4, m4⟩, g4⟩ := eqFrame_deriveStep4 _ w3
  obtain ⟨w5, _, ⟨e5, c5, m5⟩, g5⟩ := eqFrame_deriveStep5 _ w4
  obtain ⟨w6, _, ⟨e6, c6, m6⟩, g6⟩ := eqFrame_deriveStep6 _ w5
  simp only [List.mem_cons, List.not_mem_nil, or_false] at hg
  show ((deriveStep6 _).getCol g).Perm _
  rcases hg with rfl | rfl | rfl | rfl
  · have e : deriveStep1 t = t := by
      apply deriveStep1_id
      unfold co2PerCapitaGuard
      rw [hhas]
      simp
    rw [g6 _ (by decide), g5 _ (by decide), g4 _ (by decide), g3 _ (by decide)]
    exact (g2 _ (by decide)).trans (by rw [e])
  · have h1 : (deriveStep1 t).hasCol "cumulative_co2" = true := by
      rw [hasCol_chain c1 m1 (by decide)]
      exact hhas
    have e : deriveStep2 (deriveStep1 t) = deriveStep1 t := by
      apply deriveStep2_id
      unfold cumulativeCo2Guard
      rw [h1]
      simp
    rw [g6 _ (by decide), g5 _ (by decide), g4 _ (by decide), g3 _ (by decide), e,
      g1 _ (by decide)]
  · have h4 : (deriveStep4 (deriveStep3 (deriveStep2 (deriveStep1 t)))).hasCol
        "gdp_per_capita" = true := by
      rw [hasCol_chain c4 m4 (by decide), hasCol_chain c3 m3 (by decide),
        hasCol_chain c2 m2 (by decide), hasCol_chain c1 m1 (by decide)]
      exact hhas
    have e : deriveStep5 (deriveStep4 (deriveStep3 (deriveStep2 (deriveStep1 t)))) =
        deriveStep4 (deriveStep3 (deriveStep2 (deriveStep1 t))) := by
      apply deriveStep5_id
      unfold gdpPerCapitaGuard
      rw [h4]
      simp
    rw [g6 _ (by decide), e, g4 _ (by decide), g3 _ (by decide)]
    exact (g2 _ (by decide)).trans (by rw [g1 _ (by decide)])
  · have h5 : (deriveStep5 (deriveStep4 (deriveStep3 (deriveStep2
        (deriveStep1 t))))).hasCol "co2_per_gdp" = true := by
      rw [hasCol_chain c5 m5 (by decide), hasCol_chain c4 m4 (by decide),
        hasCol_chain c3 m3 (by decide), hasCol_chain c2 m2 (by decide),
        hasCol_chain c1 m1 (by decide)]
      exact hhas
    have e : deriveStep6 (deriveStep5 (deriveStep4 (deriveStep3 (deriveStep2
        (deriveStep1 t))))) =
        deriveStep5 (deriveStep4 (deriveStep3 (deriveStep2 (deriveStep1 t)))) := by
      apply deriveStep6_id
      unfold co2PerGdpGuard
      rw [h5]
      simp
    rw [e, g5 _ (by decide), g4 _ (by decide), g3 _ (by decide)]
    exact (g2 _ (by decide)).trans (by rw [g1 _ (by decide)])

theorem cellLe_refl (a : Cell) : cellLe a a = true := by
  cases a <;> simp [cellLe]

theorem cellLe_total (a b : Cell) : cellLe a b = true ∨ cellLe b a = true := by
  cases a <;> cases b <;> simp [cellLe, cellRank] <;> exact le_total _ _

theorem cellLe_trans {a b c : Cell} (hab : cellLe a b = true) (hbc : cellLe b c = true) :
    cellLe a c = true := by
  cases a <;> cases b <;> cases c <;>
    simp only [cellLe, cellRank, decide_eq_true_eq] at hab hbc ⊢ <;>
    first
      | rfl
      | omega
      | exact le_trans hab hbc
      | simp_all

theorem cellLe_antisymm {a b : Cell} (hab : cellLe a b = true) (hba : cellLe b a = true) :
    a = b := by
  cases a <;> cases b <;>
    simp only [cellLe, cellRank, decide_eq_true_eq] at hab hba ⊢ <;>
    first
      | rfl
      | omega
      | exact congrArg Cell.num (le_antisymm hab hba)
      | exact congrArg Cell.str (le_antisymm hab hba)

theorem keyLe_refl (a : Cell × Cell) : keyLe a a = true := by
  unfold keyLe
  simp [cellLe_refl]

theorem keyLe_total (a b : Cell × Cell) : keyLe a b = true ∨ keyLe b a = true := by
  unfold keyLe
  by_cases h : a.1 = b.1
  · rw [if_pos h, if_pos h.symm]
    exact cellLe_total _ _
  · rw [if_neg h, if_neg (fun hh => h hh.symm)]
    exact cellLe_total _ _

theorem keyLe_trans {a b c : Cell × Cell} (hab : keyLe a b = true)
    (hbc : keyLe b c = true) : keyLe a c = true := by
  unfold keyLe at hab hbc ⊢
  by_cases h1 : a.1 = b.1
  · by_cases h2 : b.1 = c.1
    · rw [if_pos h1] at hab
      rw [if_pos h2] at hbc
      rw [if_pos (h1.trans h2)]
      exact cellLe_trans hab hbc
    · rw [if_pos h1] at hab
      rw [if_neg h2] at hbc
      rw [if_neg (fun h => h2 (h1.symm.trans h)), h1]
      exact hbc
  · by_cases h2 : b.1 = c.1
    · rw [if_neg h1] at hab
      rw [if_pos h2] at hbc
      rw [if_neg (fun h => h1 (h.trans h2.symm)), ← h2]
      exact hab
    · rw [if_neg h1] at hab
      rw [if_neg h2] at hbc
      by_cases h3 : a.1 = c.1
      · exact absurd (cellLe_antisymm hab (h3.symm ▸ hbc)) h1
      · rw [if_neg h3]
        exact cellLe_trans hab hbc

/-- The lexicographic reading of the sort key on well-typed cells: compare
countries as strings, and on equal countries compare years numerically. -/
theorem keyLe_str_num (s s2 : String) (q q2 : ℚ) :
    keyLe (Cell.str s, Cell.num q) (Cell.str s2, Cell.num q2) = true ↔
      (s < s2 ∨ (s = s2 ∧ q ≤ q2)) := by
  unfold keyLe
  by_cases h : s = s2
  · subst h
    simp [cellLe]
  · have hne : (Cell.str s, Cell.num q).1 ≠ (Cell.str s2, Cell.num q2).1 := by
      simp [h]
    rw [if_neg hne]
    simp only [cellLe, decide_eq_true_eq]
    constructor
    · intro hle
      exact Or.inl (lt_of_le_of_ne hle h)
    · intro hor
      rcases hor with hlt | ⟨heq, _⟩
      · exact le_of_lt hlt
      · exact absurd heq h

theorem rowKey_projRow {u : Table} {r : List Cell} {ci yi : Nat}
    (hc : u.colIdx "country" = some ci) (hy : u.colIdx "year" = some yi) :
    rowKey 0 1 (projRow u.cols ["country", "year", "co2"] r) = rowKey ci yi r := by
  have hc2 : u.cols.findIdx? (fun x => x = "country") = some ci := hc
  have hy2 : u.cols.findIdx? (fun x => x = "year") = some yi := hy
  unfold projRow rowKey
  simp only [List.map_cons, List.map_nil, hc2, hy2, List.getD_cons_zero,
    List.getD_cons_succ]

theorem insertionSort_filter_key (Q : List (List Cell)) (k : Cell × Cell) :
    (Q.insertionSort (rowLeP 0 1)).filter (fun r => decide (rowKey 0 1 r = k)) =
      Q.filter (fun r => decide (rowKey 0 1 r = k)) := by
  have hpair : (Q.filter (fun r => decide (rowKey 0 1 r = k))).Pairwise (rowLeP 0 1) := by
    apply List.pairwise_of_forall_mem_list
    intro a ha b hb
    rw [List.mem_filter] at ha hb
    have ha2 : rowKey 0 1 a = k := by simpa using ha.2
    have hb2 : rowKey 0 1 b = k := by simpa using hb.2
    unfold rowLeP
    rw [ha2, hb2]
    exact keyLe_refl k
  have hsub : List.Sublist (Q.filter (fun r => decide (rowKey 0 1 r = k)))
      (Q.insertionSort (rowLeP 0 1)) :=
    List.sublist_insertionSort hpair (List.filter_sublist Q)
  have hsub2 : List.Sublist (Q.filter (fun r => decide (rowKey 0 1 r = k)))
      ((Q.insertionSort (rowLeP 0 1)).filter (fun r => decide (rowKey 0 1 r = k))) := by
    have h2 := hsub.filter (fun r => decide (rowKey 0 1 r = k))
    rw [List.filter_filter] at h2
    simpa using h2
  have hlen : ((Q.insertionSort (rowLeP 0 1)).filter
      (fun r => decide (rowKey 0 1 r = k))).length =
      (Q.filter (fun r => decide (rowKey 0 1 r = k))).length :=
    ((List.perm_insertionSort (rowLeP 0 1) Q).filter _).length_eq
  exact (hsub2.eq_of_length hlen.symm).symm

/-- C3: when `cumulative_co2` is absent and `co2`, `country` and `year`
are present, the Metric Deriver stably sorts the rows by `(country, year)`
and adds `cumulative_co2` as the per-country running sum of `co2` in that
order, skipping missing values. -/
theorem cumulative_co2_spec (t : Table) (hwf : t.wf)
    (habs : t.hasCol "cumulative_co2" = false) (hco2 : t.hasCol "co2" = true)
    (hcty : t.hasCol "country" = true) (hyear : t.hasCol "year" = true) :
    (derive t).hasCol "cumulative_co2" = true ∧
    (rowsProj (derive t) ["country", "year", "co2"]).Perm
      (rowsProj t ["country", "year", "co2"]) ∧
    List.Pairwise (rowLeP 0 1) (rowsProj (derive t) ["country", "year", "co2"]) ∧
    (∀ k : Cell × Cell,
      (rowsProj (derive t) ["country", "year", "co2"]).filter
        (fun r => decide (rowKey 0 1 r = k)) =
      (rowsProj t ["country", "year", "co2"]).filter
        (fun r => decide (rowKey 0 1 r = k))) ∧
    (derive t).getCol "cumulative_co2" =
      groupCumsum ((derive t).getCol "country") ((derive t).getCol "co2") ∧
    (∀ s s2 : String, ∀ q q2 : ℚ,
      rowLeP 0 1 [Cell.str s, Cell.num q] [Cell.str s2, Cell.num q2] ↔
        (s < s2 ∨ (s = s2 ∧ q ≤ q2))) := by
  obtain ⟨w1, l1, ⟨e1, c1, m1⟩, g1⟩ := eqFrame_deriveStep1 t hwf
  have h1cty : (deriveStep1 t).hasCol "country" = true := by
    rw [hasCol_chain c1 m1 (by decide)] ; exact hcty
  have h1co2 : (deriveStep1 t).hasCol "co2" = true := by
    rw [hasCol_chain c1 m1 (by decide)] ; exact hco2
  have h1year : (deriveStep1 t).hasCol "year" = true := by
    rw [hasCol_chain c1 m1 (by decide)] ; exact hyear
  have h1abs : (deriveStep1 t).hasCol "cumulative_co2" = false := by
    rw [hasCol_chain c1 m1 (by decide)] ; exact habs
  have hguard : cumulativeCo2Guard (deriveStep1 t) = true := by
    unfold cumulativeCo2Guard
    rw [h1abs, h1co2, h1cty, h1year]
    rfl
  obtain ⟨ci, hci⟩ := colIdx_isSome_of_hasCol h1cty
  obtain ⟨yi, hyi⟩ := colIdx_isSome_of_hasCol h1year
  have hA : sortByCountryYear (deriveStep1 t) =
      ⟨(deriveStep1 t).cols,
       (deriveStep1 t).rows.insertionSort (rowLeP ci yi)⟩ := by
    unfold sortByCountryYear
    rw [hci, hyi]
    rfl
  have wA : (sortByCountryYear (deriveStep1 t)).wf := wf_sort w1
  have hActy : (sortByCountryYear (deriveStep1 t)).hasCol "country" = true := h1cty
  have hlenv : (groupCumsum ((sortByCountryYear (deriveStep1 t)).getCol "country")
      ((sortByCountryYear (deriveStep1 t)).getCol "co2")).length =
      (sortByCountryYear (deriveStep1 t)).rows.length := by
    rw [length_groupCumsum, getCol_length hActy]
  have hstep2 : deriveStep2 (deriveStep1 t) =
      (sortByCountryYear (deriveStep1 t)).setCol "cumulative_co2"
        (groupCumsum ((sortByCountryYear (deriveStep1 t)).getCol "country")
          ((sortByCountryYear (deriveStep1 t)).getCol "co2")) := by
    unfold deriveStep2
    rw [if_pos hguard]
  have hkeep : ∀ c ∈ ["country", "year", "co2"], t.hasCol c = true := by
    intro c hc
    simp only [List.mem_cons, List.not_mem_nil, or_false] at hc
    rcases hc with rfl | rfl | rfl <;> assumption
  have hP1 : rowsProj (deriveStep1 t) ["country", "year", "co2"] =
      rowsProj t ["country", "year", "co2"] := rowsProj_deriveStep1 hwf hkeep
  have hP2 : rowsProj (deriveStep2 (deriveStep1 t)) ["country", "year", "co2"] =
      rowsProj (sortByCountryYear (deriveStep1 t)) ["country", "year", "co2"] := by
    rw [hstep2]
    exact rowsProj_setCol wA.2 hlenv (by decide)
  obtain ⟨w2, l2, ⟨e2, c2, m2⟩, g2⟩ := step2_frame _ w1
  obtain ⟨w3, l3, ⟨e3, c3, m3⟩, g3⟩ := eqFrame_deriveStep3 _ w2
  obtain ⟨w4, l4, ⟨e4, c4, m4⟩, g4⟩ := eqFrame_deriveStep4 _ w3
  obtain ⟨w5, l5, ⟨e5, c5, m5⟩, g5⟩ := eqFrame_deriveStep5 _ w4
  have k1 : ∀ c ∈ ["country", "year", "co2"], (deriveStep1 t).hasCol c = true :=
    fun c hc => hasCol_mono_ext c1 (hkeep c hc)
  have k2 : ∀ c ∈ ["country", "year", "co2"],
      (deriveStep2 (deriveStep1 t)).hasCol c = true :=
    fun c hc => hasCol_mono_ext c2 (k1 c hc)
  have k3 : ∀ c ∈ ["country", "year", "co2"],
      (deriveStep3 (deriveStep2 (deriveStep1 t))).hasCol c = true :=
    fun c hc => hasCol_mono_ext c3 (k2 c hc)
  have k4 : ∀ c ∈ ["country", "year", "co2"],
      (deriveStep4 (deriveStep3 (deriveStep2 (deriveStep1 t)))).hasCol c = true :=
    fun c hc => hasCol_mono_ext c4 (k3 c hc)
  have k5 : ∀ c ∈ ["country", "year", "co2"],
      (deriveStep5 (deriveStep4 (deriveStep3 (deriveStep2
        (deriveStep1 t))))).hasCol c = true :=
    fun c hc => hasCol_mono_ext c5 (k4 c hc)
  have hl : ∀ a ∈ (deriveStep1 t).rows, ∀ b ∈ (deriveStep1 t).rows,
      rowLeP ci yi a b ↔
        rowLeP 0 1 (projRow (deriveStep1 t).cols ["country", "year", "co2"] a)
          (projRow (deriveStep1 t).cols ["country", "year", "co2"] b) := by
    intro a _ b _
    unfold rowLeP
    rw [rowKey_projRow hci hyi, rowKey_projRow hci hyi]
  have hPmain : rowsProj (derive t) ["country", "year", "co2"] =
      (rowsProj t ["country", "year", "co2"]).insertionSort (rowLeP 0 1) := by
    show rowsProj (deriveStep6 _) ["country", "year", "co2"] = _
    rw [rowsProj_deriveStep6 w5 k5, rowsProj_deriveStep5 w4 k4,
      rowsProj_deriveStep4 w3 (by decide), rowsProj_deriveStep3 w2 (by decide),
      hP2, hA]
    show ((deriveStep1 t).rows.insertionSort (rowLeP ci yi)).map
      (projRow (deriveStep1 t).cols ["country", "year", "co2"]) = _
    rw [List.map_insertionSort (rowLeP ci yi) (rowLeP 0 1) _ _ hl]
    have : (deriveStep1 t).rows.map
        (projRow (deriveStep1 t).cols ["country", "year", "co2"]) =
        rowsProj t ["country", "year", "co2"] := hP1
    rw [this]
  have hcum2 : (deriveStep2 (deriveStep1 t)).getCol "cumulative_co2" =
      groupCumsum ((sortByCountryYear (deriveStep1 t)).getCol "country")
        ((sortByCountryYear (deriveStep1 t)).getCol "co2") := by
    rw [hstep2]
    exact getCol_setCol_self wA.2 hlenv
  have hcty2 : (deriveStep2 (deriveStep1 t)).getCol "country" =
      (sortByCountryYear (deriveStep1 t)).getCol "country" := by
    rw [hstep2]
    exact getCol_setCol_other wA.2 hlenv (by decide)
  have hco22 : (deriveStep2 (deriveStep1 t)).getCol "co2" =
      (sortByCountryYear (deriveStep1 t)).getCol "co2" := by
    rw [hstep2]
    exact getCol_setCol_other wA.2 hlenv (by decide)
  obtain ⟨s4c, _, _, _⟩ := steps456_getCol (deriveStep3 (deriveStep2 (deriveStep1 t)))
    w3 "cumulative_co2" (by decide)
  obtain ⟨s4y, _, _, _⟩ := steps456_getCol (deriveStep3 (deriveStep2 (deriveStep1 t)))
    w3 "country" (by decide)
  obtain ⟨s4z, _, _, _⟩ := steps456_getCol (deriveStep3 (deriveStep2 (deriveStep1 t)))
    w3 "co2" (by decide)
  have hTcum : (derive t).getCol "cumulative_co2" =
      groupCumsum ((sortByCountryYear (deriveStep1 t)).getCol "country")
        ((sortByCountryYear (deriveStep1 t)).getCol "co2") := by
    show (deriveStep6 _).getCol "cumulative_co2" = _
    rw [s4c, g3 _ (by decide), hcum2]
  have hTcty : (derive t).getCol "country" =
      (sortByCountryYear (deriveStep1 t)).getCol "country" := by
    show (deriveStep6 _).getCol "country" = _
    rw [s4y, g3 _ (by decide), hcty2]
  have hTco2 : (derive t).getCol "co2" =
      (sortByCountryYear (deriveStep1 t)).getCol "co2" := by
    show (deriveStep6 _).getCol "co2" = _
    rw [s4z, g3 _ (by decide), hco22]
  refine ⟨derive_hasCol_cumulative hwf hco2 hcty hyear, ?_, ?_, ?_, ?_, ?_⟩
  · rw [hPmain]
    exact List.perm_insertionSort _ _
  · rw [hPmain]
    exact @List.sorted_insertionSort _ (rowLeP 0 1) _
      ⟨fun a b => keyLe_total (rowKey 0 1 a) (rowKey 0 1 b)⟩
      ⟨fun _ _ _ hab hbc => keyLe_trans hab hbc⟩ _
  · intro k
    rw [hPmain]
    exact insertionSort_filter_key _ k
  · rw [hTcum, hTcty, hTco2]
  · intro s s2 q q2
    unfold rowLeP
    have h1 : rowKey 0 1 [Cell.str s, Cell.num q] = (Cell.str s, Cell.num q) := rfl
    have h2 : rowKey 0 1 [Cell.str s2, Cell.num q2] = (Cell.str s2, Cell.num q2) := rfl
    rw [h1, h2]
    exact keyLe_str_num s s2 q q2

theorem find?_first_block {p : String → Bool} {c : String} (l2 : List String) :
    ∀ l1 : List String, (∀ x ∈ l1, p x = false) → p c = true →
      (l1 ++ c :: l2).find? p = some c
  | [], _, hc => by simp [List.find?_cons, hc]
  | a :: l1, h, hc => by
    have ha : p a = false := h a (by simp)
    simp only [List.cons_append, List.find?_cons, ha]
    exact find?_first_block l2 l1 (fun x hx => h x (by simp [hx])) hc

theorem map_rename_block {target c : String} (l1 l2 : List String)
    (h1 : ∀ x ∈ l1, x ≠ c) (h2 : c ∉ l2) :
    (l1 ++ c :: l2).map (fun x => if x = c then target else x) =
      l1 ++ target :: l2 := by
  rw [List.map_append, List.map_cons, if_pos rfl]
  congr 1
  · apply (List.map_congr_left _).trans (List.map_id _)
    intro x hx
    rw [if_neg (h1 x hx)]
    rfl
  · congr 1
    apply (List.map_congr_left _).trans (List.map_id _)
    intro x hx
    rw [if_neg (fun hxc : x = c => h2 (hxc ▸ hx))]
    rfl

theorem renameTarget_skip_when_present (t : Table) (target : String)
    (rule : String → Bool) (h : t.hasCol target = true) :
    renameTarget t target rule = t := by
  unfold renameTarget
  rw [if_pos h]

theorem renameTarget_first_match (t : Table) (target : String) (rule : String → Bool)
    (l1 l2 : List String) (c : String) (habs : t.hasCol target = false)
    (hnd : t.cols.Nodup) (hcols : t.cols = l1 ++ c :: l2) (hc : rule c = true)
    (hl1 : ∀ x ∈ l1, rule x = false) :
    (renameTarget t target rule).cols = l1 ++ target :: l2 ∧
    (renameTarget t target rule).rows = t.rows := by
  have hfind : t.cols.find? rule = some c := by
    rw [hcols]
    exact find?_first_block l2 l1 hl1 hc
  unfold renameTarget
  rw [if_neg (by simp [habs]), hfind]
  refine ⟨?_, rfl⟩
  show t.cols.map (fun x => if x = c then target else x) = l1 ++ target :: l2
  rw [hcols]
  apply map_rename_block
  · intro x hx hxc
    rw [hxc] at hx
    exact absurd hc (by rw [hl1 c hx] ; simp)
  · rw [hcols] at hnd
    have := List.Nodup.of_append_right hnd
    exact (List.nodup_cons.1 this).1

theorem renameTarget_untouched (t : Table) (target : String) (rule : String → Bool)
    (d : String) (hd : rule d = false) (hhas : t.hasCol d = true) :
    (renameTarget t target rule).hasCol d = true ∧
    (renameTarget t target rule).getCol d = t.getCol d := by
  unfold renameTarget
  by_cases hp : t.hasCol target = true
  · rw [if_pos hp]
    exact ⟨hhas, rfl⟩
  · rw [if_neg hp]
    cases hfind : t.cols.find? rule with
    | none => exact ⟨hhas, rfl⟩
    | some c =>
      have hc : rule c = true := List.find?_some hfind
      have hdc : d ≠ c := by
        intro h
        rw [h, hc] at hd
        exact Bool.noConfusion hd
      have htd : target ≠ d := by
        intro h
        rw [← h] at hhas
        rw [hhas] at hp
        exact hp rfl
      constructor
      · show (t.cols.map (fun x => if x = c then target else x)).contains d = true
        rw [hasCol_iff_mem] at hhas
        have : d ∈ t.cols.map (fun x => if x = c then target else x) :=
          List.mem_map.2 ⟨d, hhas, by rw [if_neg hdc]⟩
        simpa [List.contains_iff_exists_mem_beq, beq_iff_eq, eq_comm] using this
      · show Table.getCol ⟨t.cols.map _, t.rows⟩ d = t.getCol d
        unfold Table.getCol Table.colIdx
        have heq : (t.cols.map (fun x => if x = c then target else x)).findIdx?
            (fun x => x = d) = t.cols.findIdx? (fun x => x = d) := by
          rw [List.findIdx?_map]
          show t.cols.findIdx? _ = _
          congr 1
          funext x
          show decide ((if x = c then target else x) = d) = decide (x = d)
          by_cases hxc : x = c
          · subst hxc
            simp [htd, Ne.symm hdc]
          · simp [hxc]
        rw [heq]

theorem normalizer_case_insensitive (t1 t2 : Table)
    (hcols : t1.cols.map strLower = t2.cols.map strLower) (hrows : t1.rows = t2.rows) :
    coerceNums (renameAll (lowerCols t1)) = coerceNums (renameAll (lowerCols t2)) := by
  have h : lowerCols t1 = lowerCols t2 := Table.eq_of _ _ hcols hrows
  rw [h]

/-- C8: the schema normalizer lowercases every header, then runs seven
rename rules in order (`country`, `year`, `co2`, `population`, `gdp`,
`gdp_per_capita`, `co2_per_capita`); each rule is skipped when its target
already exists, otherwise renames the first matching column only, and a
column matched by a later rule is never one of the earlier targets. -/
theorem schema_rename_rules :
    (∀ (t : Table) (target : String) (rule : String → Bool),
      t.hasCol target = true → renameTarget t target rule = t) ∧
    (∀ (t : Table) (target : String) (rule : String → Bool) (l1 l2 : List String)
      (c : String), t.hasCol target = false → t.cols.Nodup →
      t.cols = l1 ++ c :: l2 → rule c = true → (∀ x ∈ l1, rule x = false) →
      (renameTarget t target rule).cols = l1 ++ target :: l2 ∧
      (renameTarget t target rule).rows = t.rows) ∧
    (∀ c : String, co2Rule c =
      (decide (c = "co2") || hasSub "co2_" c || strEndsWith c "co2")) ∧
    (∀ t1 t2 : Table, t1.cols.map strLower = t2.cols.map strLower →
      t1.rows = t2.rows →
      coerceNums (renameAll (lowerCols t1)) = coerceNums (renameAll (lowerCols t2))) ∧
    (∀ (t : Table) (target : String) (rule : String → Bool) (d : String),
      rule d = false → t.hasCol d = true →
      (renameTarget t target rule).hasCol d = true ∧
      (renameTarget t target rule).getCol d = t.getCol d) ∧
    (yearRule "country" = false ∧ co2Rule "country" = false ∧ co2Rule "year" = false ∧
     popRule "country" = false ∧ popRule "year" = false ∧ popRule "co2" = false ∧
     gdpRule "country" = false ∧ gdpRule "year" = false ∧ gdpRule "co2" = false ∧
     gdpRule "population" = false ∧
     gdpPcRule "country" = false ∧ gdpPcRule "year" = false ∧ gdpPcRule "co2" = false ∧
     gdpPcRule "population" = false ∧ gdpPcRule "gdp" = false ∧
     co2PcRule "country" = false ∧ co2PcRule "year" = false ∧ co2PcRule "co2" = false ∧
     co2PcRule "population" = false ∧ co2PcRule "gdp" = false ∧
     co2PcRule "gdp_per_capita" = false) :=
  ⟨renameTarget_skip_when_present,
   renameTarget_first_match,
   fun _ => rfl,
   normalizer_case_insensitive,
   renameTarget_untouched,
   by decide⟩

theorem contains_iff_mem_str {l : List String} {s : String} :
    l.contains s = true ↔ s ∈ l := by
  simp [List.contains_iff_exists_mem_beq, beq_iff_eq, eq_comm]

theorem co2PerCapitaGuard_false_after (t : Table) (hwf : t.wf) :
    co2PerCapitaGuard (derive t) = false := by
  unfold co2PerCapitaGuard
  by_cases hc : t.hasCol "co2" = true
  · by_cases hp : t.hasCol "population" = true
    · rw [derive_hasCol_co2pc hwf hc hp]
      rfl
    · rw [derive_hasCol_nonderived hwf (d := "population") (by decide),
        bool_eq_false_of_ne_true hp]
      simp
  · rw [derive_hasCol_nonderived hwf (d := "co2") (by decide),
      bool_eq_false_of_ne_true hc]
    simp

theorem cumulativeCo2Guard_false_after (t : Table) (hwf : t.wf) :
    cumulativeCo2Guard (derive t) = false := by
  unfold cumulativeCo2Guard
  by_cases hc : t.hasCol "co2" = true
  · by_cases hk : t.hasCol "country" = true
    · by_cases hy : t.hasCol "year" = true
      · rw [derive_hasCol_cumulative hwf hc hk hy]
        rfl
      · rw [derive_hasCol_nonderived hwf (d := "year") (by decide),
          bool_eq_false_of_ne_true hy]
        simp
    · rw [derive_hasCol_nonderived hwf (d := "country") (by decide),
        bool_eq_false_of_ne_true hk]
      simp
  · rw [derive_hasCol_nonderived hwf (d := "co2") (by decide),
      bool_eq_false_of_ne_true hc]
    simp

theorem gdpPerCapitaGuard_false_after (t : Table) (hwf : t.wf) :
    gdpPerCapitaGuard (derive t) = false := by
  unfold gdpPerCapitaGuard
  by_cases hg : t.hasCol "gdp" = true
  · by_cases hp : t.hasCol "population" = true
    · rw [derive_hasCol_gdppc hwf hg hp]
      rfl
    · rw [derive_hasCol_nonderived hwf (d := "population") (by decide),
        bool_eq_false_of_ne_true hp]
      simp
  · rw [derive_hasCol_nonderived hwf (d := "gdp") (by decide),
      bool_eq_false_of_ne_true hg]
    simp

theorem co2PerGdpGuard_false_after (t : Table) (hwf : t.wf) :
    co2PerGdpGuard (derive t) = false := by
  unfold co2PerGdpGuard
  by_cases hc : t.hasCol "co2" = true
  · by_cases hg : t.hasCol "gdp" = true
    · rw [derive_hasCol_co2gdp hwf hc hg]
      rfl
    · rw [derive_hasCol_nonderived hwf (d := "gdp") (by decide),
        bool_eq_false_of_ne_true hg]
      simp
  · rw [derive_hasCol_nonderived hwf (d := "co2") (by decide),
      bool_eq_false_of_ne_true hc]
    simp


/-- C9: a loaded table with zero rows — even one that still has columns —
skips the whole normalization/derivation pipeline and passes through
unchanged (`if not df.empty:` guards every block). -/
theorem empty_table_pipeline_id (t : Table) (h : t.rows = []) : appPipeline t = t := by
  unfold appPipeline
  rw [h]
  simp

/-- Witness for C9 on a header-only table. -/
theorem empty_table_pipeline_id_witness :
    exHeaderOnly.rows = [] ∧ appPipeline exHeaderOnly = exHeaderOnly :=
  ⟨rfl, empty_table_pipeline_id exHeaderOnly rfl⟩

/-- C2 (failing evaluation): on two rows of one year with `co2` summing to
zero, the code's `co2_pct = (co2 / total * 100).fillna(0)` produces `+inf`
and `-inf`, not `0` — `fillna(0)` replaces only `NaN`, never infinities. -/
theorem co2_pct_infinite_on_zero_total :
    (derive exTotalZero).getCol "global_total_co2" = [Cell.num 0, Cell.num 0] ∧
    (derive exTotalZero).getCol "co2_pct" = [Cell.inf, Cell.negInf] := by
  with_unfolding_all decide

/-- C1 (counterexample): a pre-existing `co2_pct` column is NOT left
unchanged — lines 92–95 recompute it unconditionally. -/
theorem co2_pct_overwritten :
    exPrePct.hasCol "co2_pct" = true ∧
    exPrePct.getCol "co2_pct" = [Cell.num 7] ∧
    (derive exPrePct).getCol "co2_pct" = [Cell.num 100] := by
  with_unfolding_all decide

/-- C10 (counterexample): the Metric Deriver does change a cell of an
input column: a pre-existing `gdp_pct` value is overwritten. -/
theorem gdp_pct_cell_changed :
    exPreGdpPct.hasCol "gdp_pct" = true ∧
    exPreGdpPct.getCol "gdp_pct" = [Cell.num 7] ∧
    (derive exPreGdpPct).getCol "gdp_pct" = [Cell.num 100] := by
  with_unfolding_all decide

/-- C4 (counterexample): on the second pass the `co2_pct` step is not
skipped — its guard (line 92) tests only for `co2` and `year`, so it runs
again even though `co2_pct` already exists. -/
theorem pct_step_not_skipped_on_second_pass :
    co2PctGuard (derive exCo2Year) = true ∧
    (derive exCo2Year).hasCol "co2_pct" = true := by
  with_unfolding_all decide

/-- C4 (amended): running the Metric Deriver on its own output changes
nothing; the four only-if-absent columns are skipped on the second pass
(their guards are false), while the total/percentage steps rerun and
recompute identical values. -/
theorem derive_idempotent_amended (t : Table) (hwf : t.wf) :
    derive (derive t) = derive t ∧
    co2PerCapitaGuard (derive t) = false ∧ cumulativeCo2Guard (derive t) = false ∧
    gdpPerCapitaGuard (derive t) = false ∧ co2PerGdpGuard (derive t) = false :=
  ⟨derive_derive_eq_derive t hwf, co2PerCapitaGuard_false_after t hwf,
   cumulativeCo2Guard_false_after t hwf, gdpPerCapitaGuard_false_after t hwf,
   co2PerGdpGuard_false_after t hwf⟩

/-- Witness for the amended C4. -/
theorem derive_idempotent_amended_witness :
    exFrame.wf ∧ derive (derive exFrame) = derive exFrame :=
  ⟨by decide, (derive_idempotent_amended exFrame (by decide)).1⟩

/-- C10 (amended): the Metric Deriver only appends new columns, and every
input column other than the four unconditionally recomputed
total/percentage columns keeps its per-row values — the rows travel whole,
possibly reordered by the `(country, year)` sort. -/
theorem derive_frame_effect_amended (t : Table) (hwf : t.wf) :
    (∃ rest, (derive t).cols = t.cols ++ rest) ∧
    (rowsProj (derive t) (t.cols.filter (fun c => !pctNames.contains c))).Perm
      (rowsProj t (t.cols.filter (fun c => !pctNames.contains c))) := by
  obtain ⟨_, _, ⟨ext, hcols, _⟩, _⟩ := derive_frame t hwf
  refine ⟨⟨ext, hcols⟩, ?_⟩
  apply derive_rowsProj_perm t hwf
  · intro c hc
    rw [List.mem_filter] at hc
    exact hasCol_iff_mem.2 hc.1
  · intro c hc hmem
    rw [List.mem_filter] at hc
    have h2 := hc.2
    rw [Bool.not_eq_true'] at h2
    rw [contains_iff_mem_str.2 hmem] at h2
    exact Bool.noConfusion h2

/-- Witness for the amended C10. -/
theorem derive_frame_effect_amended_witness :
    exFrame.wf ∧
    (rowsProj (derive exFrame) (exFrame.cols.filter (fun c => !pctNames.contains c))).Perm
      (rowsProj exFrame (exFrame.cols.filter (fun c => !pctNames.contains c))) :=
  ⟨by decide, (derive_frame_effect_amended exFrame (by decide)).2⟩

/-- Witness for the amended C1 theorem. -/
theorem guarded_getCol_perm_witness :
    exGuarded.wf ∧ exGuarded.hasCol "co2_per_capita" = true ∧
    ((derive exGuarded).getCol "co2_per_capita").Perm
      (exGuarded.getCol "co2_per_capita") :=
  ⟨by decide, by decide,
   guarded_getCol_perm exGuarded (by decide) "co2_per_capita" (by decide) (by decide)⟩

/-- Witness for C5 at the spec's example (`co2 = 100`, `gdp = 0`). -/
theorem co2_per_gdp_spec_witness :
    exGdpZero.wf ∧ exGdpZero.hasCol "co2_per_gdp" = false ∧
    ((derive exGdpZero).getCol "co2_per_gdp").getD 0 Cell.na = Cell.na := by
  refine ⟨by decide, by decide, ?_⟩
  rw [(co2_per_gdp_spec exGdpZero (by decide) (by decide) (by decide) (by decide)).2.2 0
    (by with_unfolding_all decide)]
  with_unfolding_all decide

/-- Witness for C6 at the spec's example (A = 10, B = 30 in one year):
both rows get `global_total_co2 = 40`, and shares 25 % and 75 %. -/
theorem global_total_co2_spec_witness :
    exTwoCountry.wf ∧
    ((derive exTwoCountry).getCol "global_total_co2").getD 0 Cell.na =
      sumSkipNA ((((derive exTwoCountry).getCol "year").zip
        ((derive exTwoCountry).getCol "co2")).filterMap
        (fun p => if p.1 = ((derive exTwoCountry).getCol "year").getD 0 Cell.na
                  then some p.2 else none)) ∧
    (derive exTwoCountry).getCol "global_total_co2" = [Cell.num 40, Cell.num 40] ∧
    (derive exTwoCountry).getCol "co2_pct" = [Cell.num 25, Cell.num 75] := by
  refine ⟨by decide,
    (global_total_co2_spec exTwoCountry (by decide) (by decide) (by decide)
      (by decide)).2.2 0 (by with_unfolding_all decide),
    by with_unfolding_all decide, by with_unfolding_all decide⟩

/-- Witness for C3 at the spec's example rows: `cumulative_co2` is the
per-country running sum, `10` then `15` in year order. -/
theorem cumulative_co2_spec_witness :
    exCumulA.wf ∧ exCumulA.hasCol "cumulative_co2" = false ∧
    (derive exCumulA).getCol "cumulative_co2" =
      groupCumsum ((derive exCumulA).getCol "country")
        ((derive exCumulA).getCol "co2") ∧
    (derive exCumulA).getCol "cumulative_co2" = [Cell.num 10, Cell.num 15] := by
  refine ⟨by decide, by decide,
    (cumulative_co2_spec exCumulA (by decide) (by decide) (by decide) (by decide)
      (by decide)).2.2.2.2.1,
    by with_unfolding_all decide⟩

/-- Witness for C8: on lower-cased columns `country, total_co2, x` the
`co2` rule renames `total_co2` (the first and only match) to `co2`. -/
theorem schema_rename_rules_witness :
    (renameTarget exRenameCo2 "co2" co2Rule).cols = ["country", "co2", "x"] ∧
    (renameTarget exRenameCo2 "co2" co2Rule).rows = exRenameCo2.rows := by
  have h := schema_rename_rules.2.1 exRenameCo2 "co2" co2Rule ["country"] ["x"]
    "total_co2" (by decide) (by decide) (by decide) (by decide)
    (by intro x hx ; simp at hx ; rw [hx] ; decide)
  exact ⟨h.1, h.2⟩

/-- Witness for C7 on a table having only `co2` and `country`: the export
has the fixed eight columns; a present column keeps its values and an
absent one is all-missing. -/
theorem master_export_witness :
    exMaster.wf ∧ (masterProject exMaster).cols = masterCols ∧
    (masterProject exMaster).getCol "gdp_pct" = [Cell.na] ∧
    (masterProject exMaster).getCol "country" = [Cell.str "A"] := by
  refine ⟨by decide, (master_export_spec exMaster (by decide)).1, ?_, ?_⟩
  · rw [(master_export_spec exMaster (by decide)).2.2 "gdp_pct" (by decide)]
    decide
  · rw [(master_export_spec exMaster (by decide)).2.2 "country" (by decide)]
    decide
